import Mathlib

/-!
Verification development for the chess.go position engine (package `chess`).

The Go sources `bit.go`, `bitboard.go`, `move.go`, `piece.go` are embedded
shallowly below: 64-bit bitboards become `Nat` values masked to 64 bits where
overflow matters, mutable `Bitboard` state becomes a Lean structure threaded
through pure functions, Go `nil`-able `*Move` becomes `Option Move`, and the
Go `map[uint64]int` transposition table becomes an association list with a
default of zero.

The repository's constants/tables file (square names, attack tables, rotated
square permutations, the Polyglot random array, the `Stack` type, the castling
bit constants and the shift helpers) is not among the provided sources; those
definitions are modelled from the specification and are marked
`Modelled from the spec:` in their doc comments.
-/

set_option maxRecDepth 100000
set_option maxHeartbeats 16000000

namespace ChessGo

/-- Piece kinds, in the source order {None, Pawn, Knight, Bishop, Rook, Queen,
King} (`PieceTypes` in `piece.go` / the missing constants file). -/
inductive PieceTypes where
  | None
  | Pawn
  | Knight
  | Bishop
  | Rook
  | Queen
  | King
deriving DecidableEq, Repr

/-- Numeric value of a piece type, matching the Go `iota` order used in the
hash-index arithmetic `(int(pieceType)-1)*2`. -/
def PieceTypes.num : PieceTypes → Nat
  | .None => 0
  | .Pawn => 1
  | .Knight => 2
  | .Bishop => 3
  | .Rook => 4
  | .Queen => 5
  | .King => 6

/-- Colors: White and Black, with White = 0 and Black = 1 as in the source
(`occupiedCo[2]uint64` is indexed `[White]`, `[Black]`). -/
inductive Colors where
  | White
  | Black
deriving DecidableEq, Repr

export Colors (White Black)
export PieceTypes (Pawn Knight Bishop Rook Queen King)

/-- The Go expression `color ^ 1` on the color indices. -/
def Colors.flip : Colors → Colors
  | White => Black
  | Black => White

/-- A piece with type and color (`piece.go`). -/
structure Piece where
  pieceType : PieceTypes
  color : Colors
deriving DecidableEq, Repr

/-- A move from a square to a square and possibly a promotion piece type
(`move.go`).  Castling moves are identified only by the movement of the king;
the Go null move (`*Move` = `nil`) is `Option.none` at use sites. -/
structure Move where
  fromSquare : Nat
  toSquare : Nat
  promotion : PieceTypes
deriving DecidableEq, Repr

/-! ## bit.go -/

/-- The loop of `popCount`, with structural fuel: a 64-bit value clears in
at most 64 `b &= b - 1` steps. -/
def popCountAux : Nat → Nat → Nat
  | _, 0 => 0
  | b, fuel + 1 => if b = 0 then 0 else 1 + popCountAux (b &&& (b - 1)) fuel

/-- `popCount` from `bit.go`: Kernighan's loop `b &= b - 1`. -/
def popCount (b : Nat) : Nat := popCountAux b 64

/-- The character list produced by Go's `fmt.Sprintf("%b", b)` (most
significant digit first, no leading zeros, and `"0"` for zero), as a list of
bits. -/
def binDigitsAux : Nat → Nat → List Bool
  | _, 0 => []
  | n, fuel + 1 => if n = 0 then [] else binDigitsAux (n / 2) fuel ++ [n % 2 == 1]

def binDigits (b : Nat) : List Bool :=
  if b = 0 then [false] else binDigitsAux b 64

/-- Index of the last `true` in a list (Go `strings.LastIndex(str, "1")`),
`none` when there is none (Go returns `-1`). -/
def lastIdxOfTrue (l : List Bool) : Option Nat :=
  (l.enum.filter (fun p => p.2)).getLast?.map (·.1)

/-- `bitScan` from `bit.go`, faithfully including its fault: the Go code
formats `b` in binary, slices `str[:(len(str)-n)]` — which panics when
`n > len(str)` — and searches the slice for the last `"1"`.  The panic is
modelled as `Option.none`; a normal return value `r` is `some r`. -/
def bitScan (b : Nat) (n : Nat) : Option Int :=
  let str := binDigits b
  if str.length < n then none
  else
    match lastIdxOfTrue (str.take (str.length - n)) with
    | Option.none => some (-1)
    | some r => some ((str.length : Int) - (r : Int) - 1)

/-- The iteration pattern `sq := bitScan(m, 0); for sq != -1 { …; sq :=
bitScan(m, sq+1) }` used throughout `bitboard.go`: on the in-range masks of
those loops `bitScan` never reaches its fault case (the restart index is at
most one past the most significant set bit) and simply yields the set bits
of the mask in ascending order. -/
def bits (m : Nat) : List Nat := (List.range 64).filter (fun i => m.testBit i)

/-! ## Squares and fixed masks

Squares are 0–63, `a1 = 0`, `h1 = 7`, `a8 = 56`, `h8 = 63`, as fixed by the
`SquareNames` table and `rankIndex`/`fileIndex` of the missing constants file
(§3 of the spec: "Square: integer 0–63 with file/rank decomposition and a
fixed name table"). -/

/-- Modelled from the spec: `fileIndex` of the missing constants file. -/
def fileIndex (sq : Nat) : Nat := sq % 8

/-- Modelled from the spec: `rankIndex` of the missing constants file. -/
def rankIndex (sq : Nat) : Nat := sq / 8

/-- Absolute file distance between two squares (as the sum of the two
truncated differences). -/
def fdist (a b : Nat) : Nat := (a % 8 - b % 8) + (b % 8 - a % 8)

/-- Absolute rank distance between two squares. -/
def rdist (a b : Nat) : Nat := (a / 8 - b / 8) + (b / 8 - a / 8)

/-- Modelled from the spec: the per-square bit masks `BBSquares[i]`. -/
def BBSquares (sq : Nat) : Nat := 2 ^ sq

def A1 : Nat := 0
def B1 : Nat := 1
def C1 : Nat := 2
def D1 : Nat := 3
def E1 : Nat := 4
def F1 : Nat := 5
def G1 : Nat := 6
def H1 : Nat := 7
def A8 : Nat := 56
def B8 : Nat := 57
def C8 : Nat := 58
def D8 : Nat := 59
def E8 : Nat := 60
def F8 : Nat := 61
def G8 : Nat := 62
def H8 : Nat := 63

/-- The 64-bit all-ones mask (`BBAll`). -/
def BBAll : Nat := 2 ^ 64 - 1

def BBVoid : Nat := 0

/-- Bitboard of all squares satisfying a predicate; the building block for
the attack-table masks modelled from the spec. -/
def bbOfList (p : Nat → Bool) (l : List Nat) : Nat :=
  l.foldr (fun s acc => cond (p s) (2 ^ s) 0 ||| acc) 0

def bbOfPred (p : Nat → Bool) : Nat := bbOfList p (List.range 64)

/-- Modelled from the spec: rank masks `BBRanks[r]`. -/
def BBRanks (r : Nat) : Nat := bbOfPred (fun sq => rankIndex sq = r)

/-- Modelled from the spec: file masks `BBFiles[f]`. -/
def BBFiles (f : Nat) : Nat := bbOfPred (fun sq => fileIndex sq = f)

/-! The fixed rank/file constants, written as the literal 64-bit masks of
the missing constants file; the theorems `BBRank1_spec` … `BBFileH_spec`
below pin each literal to its `BBRanks`/`BBFiles` characterization. -/

def BBRank1 : Nat := 0xff
def BBRank2 : Nat := 0xff00
def BBRank4 : Nat := 0xff000000
def BBRank5 : Nat := 0xff00000000
def BBRank7 : Nat := 0xff000000000000
def BBRank8 : Nat := 0xff00000000000000
def BBFileA : Nat := 0x0101010101010101
def BBFileH : Nat := 0x8080808080808080

/-- Modelled from the spec: dark squares (file+rank even). -/
def BBDarkSquares : Nat := 0xaa55aa55aa55aa55

/-- Modelled from the spec: light squares. -/
def BBLightSquares : Nat := 0x55aa55aa55aa55aa

/-! Shift helpers, modelled from the spec (§4.1 pawn masks move one rank /
one file with no wrap-around across the board edge). -/

/-- Modelled from the spec: `shiftUp`. -/
def shiftUp (b : Nat) : Nat := (b <<< 8) &&& BBAll

/-- Modelled from the spec: `shiftDown`. -/
def shiftDown (b : Nat) : Nat := b >>> 8

/-- Modelled from the spec: `shiftLeft` (one file towards `a`). -/
def shiftLeft (b : Nat) : Nat := (b >>> 1) &&& (BBAll ^^^ BBFileH)

/-- Modelled from the spec: `shiftRight` (one file towards `h`). -/
def shiftRight (b : Nat) : Nat := (b <<< 1) &&& (BBAll ^^^ BBFileA) &&& BBAll

/-- Modelled from the spec: `shiftUpLeft`. -/
def shiftUpLeft (b : Nat) : Nat := (b <<< 7) &&& (BBAll ^^^ BBFileH) &&& BBAll

/-- Modelled from the spec: `shiftUpRight`. -/
def shiftUpRight (b : Nat) : Nat := (b <<< 9) &&& (BBAll ^^^ BBFileA) &&& BBAll

/-- Modelled from the spec: `shiftDownLeft`. -/
def shiftDownLeft (b : Nat) : Nat := (b >>> 9) &&& (BBAll ^^^ BBFileH)

/-- Modelled from the spec: `shiftDownRight`. -/
def shiftDownRight (b : Nat) : Nat := (b >>> 7) &&& (BBAll ^^^ BBFileA)

/-! ## Attack tables (modelled from the spec, §4.1)

The knight/king/pawn masks and the rotated-occupancy slider lookup tables
live in the missing constants file.  Per the spec the slider lookup "yields
the full attack set" for the current occupancy, so slider attacks are
modelled directly as ray attack sets over `occupied`. -/

/-- Knight-move relation between two squares. -/
def knightPred (sq t : Nat) : Bool :=
  (fdist sq t = 1 && rdist sq t = 2) || (fdist sq t = 2 && rdist sq t = 1)

/-- Modelled from the spec: the precomputed table `BBKnightAttacks`; the
theorem `knightTable_spec` below proves every entry equal to the set of
`knightPred` targets of its square. -/
def knightAttacksTable : List Nat :=
  [0x20400, 0x50800, 0xa1100, 0x142200, 0x284400, 0x508800, 0xa01000, 0x402000,
   0x2040004, 0x5080008, 0xa110011, 0x14220022, 0x28440044, 0x50880088, 0xa0100010, 0x40200020,
   0x204000402, 0x508000805, 0xa1100110a, 0x1422002214, 0x2844004428, 0x5088008850, 0xa0100010a0, 0x4020002040,
   0x20400040200, 0x50800080500, 0xa1100110a00, 0x142200221400, 0x284400442800, 0x508800885000, 0xa0100010a000, 0x402000204000,
   0x2040004020000, 0x5080008050000, 0xa1100110a0000, 0x14220022140000, 0x28440044280000, 0x50880088500000, 0xa0100010a00000, 0x40200020400000,
   0x204000402000000, 0x508000805000000, 0xa1100110a000000, 0x1422002214000000, 0x2844004428000000, 0x5088008850000000, 0xa0100010a0000000, 0x4020002040000000,
   0x400040200000000, 0x800080500000000, 0x1100110a00000000, 0x2200221400000000, 0x4400442800000000, 0x8800885000000000, 0x100010a000000000, 0x2000204000000000,
   0x4020000000000, 0x8050000000000, 0x110a0000000000, 0x22140000000000, 0x44280000000000, 0x88500000000000, 0x10a00000000000, 0x20400000000000]

def BBKnightAttacks (sq : Nat) : Nat := knightAttacksTable.getD sq 0

/-- King-move relation between two squares. -/
def kingPred (sq t : Nat) : Bool :=
  fdist sq t ≤ 1 && rdist sq t ≤ 1 && !(fdist sq t = 0 && rdist sq t = 0)

/-- Modelled from the spec: the precomputed table `BBKingAttacks`; pinned to
`kingPred` by `kingTable_spec` below. -/
def kingAttacksTable : List Nat :=
  [0x302, 0x705, 0xe0a, 0x1c14, 0x3828, 0x7050, 0xe0a0, 0xc040,
   0x30203, 0x70507, 0xe0a0e, 0x1c141c, 0x382838, 0x705070, 0xe0a0e0, 0xc040c0,
   0x3020300, 0x7050700, 0xe0a0e00, 0x1c141c00, 0x38283800, 0x70507000, 0xe0a0e000, 0xc040c000,
   0x302030000, 0x705070000, 0xe0a0e0000, 0x1c141c0000, 0x3828380000, 0x7050700000, 0xe0a0e00000, 0xc040c00000,
   0x30203000000, 0x70507000000, 0xe0a0e000000, 0x1c141c000000, 0x382838000000, 0x705070000000, 0xe0a0e0000000, 0xc040c0000000,
   0x3020300000000, 0x7050700000000, 0xe0a0e00000000, 0x1c141c00000000, 0x38283800000000, 0x70507000000000, 0xe0a0e000000000, 0xc040c000000000,
   0x302030000000000, 0x705070000000000, 0xe0a0e0000000000, 0x1c141c0000000000, 0x3828380000000000, 0x7050700000000000, 0xe0a0e00000000000, 0xc040c00000000000,
   0x203000000000000, 0x507000000000000, 0xa0e000000000000, 0x141c000000000000, 0x2838000000000000, 0x5070000000000000, 0xa0e0000000000000, 0x40c0000000000000]

def BBKingAttacks (sq : Nat) : Nat := kingAttacksTable.getD sq 0

/-- Squares diagonally attacked by a pawn of the given color standing on
`sq` (one rank forward, one file to either side). -/
def pawnAttackPred (c : Colors) (sq t : Nat) : Bool :=
  fdist sq t = 1 &&
    (match c with
     | White => t / 8 = sq / 8 + 1
     | Black => t / 8 + 1 = sq / 8)

/-- Modelled from the spec: the precomputed white half of
`BBPawnAttacks[color][sq]`; pinned to `pawnAttackPred` by
`pawnAttacksTable_spec` below. -/
def pawnAttacksTableW : List Nat :=
  [0x200, 0x500, 0xa00, 0x1400, 0x2800, 0x5000, 0xa000, 0x4000,
   0x20000, 0x50000, 0xa0000, 0x140000, 0x280000, 0x500000, 0xa00000, 0x400000,
   0x2000000, 0x5000000, 0xa000000, 0x14000000, 0x28000000, 0x50000000, 0xa0000000, 0x40000000,
   0x200000000, 0x500000000, 0xa00000000, 0x1400000000, 0x2800000000, 0x5000000000, 0xa000000000, 0x4000000000,
   0x20000000000, 0x50000000000, 0xa0000000000, 0x140000000000, 0x280000000000, 0x500000000000, 0xa00000000000, 0x400000000000,
   0x2000000000000, 0x5000000000000, 0xa000000000000, 0x14000000000000, 0x28000000000000, 0x50000000000000, 0xa0000000000000, 0x40000000000000,
   0x200000000000000, 0x500000000000000, 0xa00000000000000, 0x1400000000000000, 0x2800000000000000, 0x5000000000000000, 0xa000000000000000, 0x4000000000000000,
   0x0, 0x0, 0x0, 0x0, 0x0, 0x0, 0x0, 0x0]

/-- Modelled from the spec: the black half of `BBPawnAttacks[color][sq]`. -/
def pawnAttacksTableB : List Nat :=
  [0x0, 0x0, 0x0, 0x0, 0x0, 0x0, 0x0, 0x0,
   0x2, 0x5, 0xa, 0x14, 0x28, 0x50, 0xa0, 0x40,
   0x200, 0x500, 0xa00, 0x1400, 0x2800, 0x5000, 0xa000, 0x4000,
   0x20000, 0x50000, 0xa0000, 0x140000, 0x280000, 0x500000, 0xa00000, 0x400000,
   0x2000000, 0x5000000, 0xa000000, 0x14000000, 0x28000000, 0x50000000, 0xa0000000, 0x40000000,
   0x200000000, 0x500000000, 0xa00000000, 0x1400000000, 0x2800000000, 0x5000000000, 0xa000000000, 0x4000000000,
   0x20000000000, 0x50000000000, 0xa0000000000, 0x140000000000, 0x280000000000, 0x500000000000, 0xa00000000000, 0x400000000000,
   0x2000000000000, 0x5000000000000, 0xa000000000000, 0x14000000000000, 0x28000000000000, 0x50000000000000, 0xa0000000000000, 0x40000000000000]

def BBPawnAttacks (c : Colors) (sq : Nat) : Nat :=
  match c with
  | White => pawnAttacksTableW.getD sq 0
  | Black => pawnAttacksTableB.getD sq 0

/-- The geometric characterization of the single-push masks. -/
def pawnF1Pred (c : Colors) (sq t : Nat) : Bool :=
  fdist sq t = 0 &&
    (match c with
     | White => t / 8 = sq / 8 + 1
     | Black => t / 8 + 1 = sq / 8)

/-- Modelled from the spec: the white half of the single-push masks
`BBPawnF1[color][sq]`; pinned to `pawnF1Pred` by `pawnF1Table_spec` below. -/
def pawnF1TableW : List Nat :=
  [0x100, 0x200, 0x400, 0x800, 0x1000, 0x2000, 0x4000, 0x8000,
   0x10000, 0x20000, 0x40000, 0x80000, 0x100000, 0x200000, 0x400000, 0x800000,
   0x1000000, 0x2000000, 0x4000000, 0x8000000, 0x10000000, 0x20000000, 0x40000000, 0x80000000,
   0x100000000, 0x200000000, 0x400000000, 0x800000000, 0x1000000000, 0x2000000000, 0x4000000000, 0x8000000000,
   0x10000000000, 0x20000000000, 0x40000000000, 0x80000000000, 0x100000000000, 0x200000000000, 0x400000000000, 0x800000000000,
   0x1000000000000, 0x2000000000000, 0x4000000000000, 0x8000000000000, 0x10000000000000, 0x20000000000000, 0x40000000000000, 0x80000000000000,
   0x100000000000000, 0x200000000000000, 0x400000000000000, 0x800000000000000, 0x1000000000000000, 0x2000000000000000, 0x4000000000000000, 0x8000000000000000,
   0x0, 0x0, 0x0, 0x0, 0x0, 0x0, 0x0, 0x0]

/-- Modelled from the spec: the black half of `BBPawnF1[color][sq]`. -/
def pawnF1TableB : List Nat :=
  [0x0, 0x0, 0x0, 0x0, 0x0, 0x0, 0x0, 0x0,
   0x1, 0x2, 0x4, 0x8, 0x10, 0x20, 0x40, 0x80,
   0x100, 0x200, 0x400, 0x800, 0x1000, 0x2000, 0x4000, 0x8000,
   0x10000, 0x20000, 0x40000, 0x80000, 0x100000, 0x200000, 0x400000, 0x800000,
   0x1000000, 0x2000000, 0x4000000, 0x8000000, 0x10000000, 0x20000000, 0x40000000, 0x80000000,
   0x100000000, 0x200000000, 0x400000000, 0x800000000, 0x1000000000, 0x2000000000, 0x4000000000, 0x8000000000,
   0x10000000000, 0x20000000000, 0x40000000000, 0x80000000000, 0x100000000000, 0x200000000000, 0x400000000000, 0x800000000000,
   0x1000000000000, 0x2000000000000, 0x4000000000000, 0x8000000000000, 0x10000000000000, 0x20000000000000, 0x40000000000000, 0x80000000000000]

def BBPawnF1 (c : Colors) (sq : Nat) : Nat :=
  match c with
  | White => pawnF1TableW.getD sq 0
  | Black => pawnF1TableB.getD sq 0

/-- The geometric characterization of the double-push masks (only from the
pawn starting rank). -/
def pawnF2Pred (c : Colors) (sq t : Nat) : Bool :=
  fdist sq t = 0 &&
    (match c with
     | White => rankIndex sq = 1 && t / 8 = sq / 8 + 2
     | Black => rankIndex sq = 6 && t / 8 + 2 = sq / 8)

/-- Modelled from the spec: the white half of the double-push masks
`BBPawnF2[color][sq]`; pinned to `pawnF2Pred` by `pawnF2Table_spec` below. -/
def pawnF2TableW : List Nat :=
  [0x0, 0x0, 0x0, 0x0, 0x0, 0x0, 0x0, 0x0,
   0x1000000, 0x2000000, 0x4000000, 0x8000000, 0x10000000, 0x20000000, 0x40000000, 0x80000000,
   0x0, 0x0, 0x0, 0x0, 0x0, 0x0, 0x0, 0x0,
   0x0, 0x0, 0x0, 0x0, 0x0, 0x0, 0x0, 0x0,
   0x0, 0x0, 0x0, 0x0, 0x0, 0x0, 0x0, 0x0,
   0x0, 0x0, 0x0, 0x0, 0x0, 0x0, 0x0, 0x0,
   0x0, 0x0, 0x0, 0x0, 0x0, 0x0, 0x0, 0x0,
   0x0, 0x0, 0x0, 0x0, 0x0, 0x0, 0x0, 0x0]

/-- Modelled from the spec: the black half of `BBPawnF2[color][sq]`. -/
def pawnF2TableB : List Nat :=
  [0x0, 0x0, 0x0, 0x0, 0x0, 0x0, 0x0, 0x0,
   0x0, 0x0, 0x0, 0x0, 0x0, 0x0, 0x0, 0x0,
   0x0, 0x0, 0x0, 0x0, 0x0, 0x0, 0x0, 0x0,
   0x0, 0x0, 0x0, 0x0, 0x0, 0x0, 0x0, 0x0,
   0x0, 0x0, 0x0, 0x0, 0x0, 0x0, 0x0, 0x0,
   0x0, 0x0, 0x0, 0x0, 0x0, 0x0, 0x0, 0x0,
   0x100000000, 0x200000000, 0x400000000, 0x800000000, 0x1000000000, 0x2000000000, 0x4000000000, 0x8000000000,
   0x0, 0x0, 0x0, 0x0, 0x0, 0x0, 0x0, 0x0]

def BBPawnF2 (c : Colors) (sq : Nat) : Nat :=
  match c with
  | White => pawnF2TableW.getD sq 0
  | Black => pawnF2TableB.getD sq 0

/-- One coordinate moved `j` unit steps from `a` toward `b` (`a` itself when
the coordinates agree). -/
def stepToward (a b j : Nat) : Nat := if a = b then a else if a < b then a + j else a - j

/-- The intermediate square `j` steps from `sq` towards `t` along the
straight or diagonal line joining them. -/
def betweenSq (sq t : Nat) (j : Nat) : Nat :=
  stepToward (sq / 8) (t / 8) j * 8 + stepToward (sq % 8) (t % 8) j

/-- All squares strictly between `sq` and `t` along their joining line are
unoccupied in `occ`. -/
def betweenFree (occ sq t : Nat) : Bool :=
  (List.range (max (fdist sq t) (rdist sq t) - 1)).all
    (fun j => !occ.testBit (betweenSq sq t (j + 1)))

/-- Diagonal slider reachability over occupancy `occ`. -/
def bishopPred (occ sq t : Nat) : Bool :=
  decide (fdist sq t = rdist sq t) && decide (sq ≠ t) && betweenFree occ sq t

/-- Straight slider reachability over occupancy `occ`. -/
def rookPred (occ sq t : Nat) : Bool :=
  decide (sq ≠ t) && (decide (rankIndex sq = rankIndex t) || decide (fileIndex sq = fileIndex t)) &&
    betweenFree occ sq t

/-- One ray of a sliding attack: the squares of the ray are collected
outwards until (and including) the first square occupied in `occ`, which
blocks the rest — the semantics the rotated-occupancy table lookups of the
missing constants file realize per §2 of the spec. -/
def walkRay (occ : Nat) : List Nat → Nat
  | [] => 0
  | j :: r => BBSquares j ||| (if occ.testBit j then 0 else walkRay occ r)

/-- Union of the rays of a sliding piece. -/
def walkRays (occ : Nat) : List (List Nat) → Nat
  | [] => 0
  | r :: rs => walkRay occ r ||| walkRays occ rs

/-- Modelled from the spec: per-square diagonal rays (squares listed
outwards from the square, one list per diagonal direction). -/
def bishopRaysTable : List (List (List Nat)) := [
  [[9, 18, 27, 36, 45, 54, 63]],
  [[10, 19, 28, 37, 46, 55], [8]],
  [[11, 20, 29, 38, 47], [9, 16]],
  [[12, 21, 30, 39], [10, 17, 24]],
  [[13, 22, 31], [11, 18, 25, 32]],
  [[14, 23], [12, 19, 26, 33, 40]],
  [[15], [13, 20, 27, 34, 41, 48]],
  [[14, 21, 28, 35, 42, 49, 56]],
  [[17, 26, 35, 44, 53, 62], [1]],
  [[18, 27, 36, 45, 54, 63], [16], [2], [0]],
  [[19, 28, 37, 46, 55], [17, 24], [3], [1]],
  [[20, 29, 38, 47], [18, 25, 32], [4], [2]],
  [[21, 30, 39], [19, 26, 33, 40], [5], [3]],
  [[22, 31], [20, 27, 34, 41, 48], [6], [4]],
  [[23], [21, 28, 35, 42, 49, 56], [7], [5]],
  [[22, 29, 36, 43, 50, 57], [6]],
  [[25, 34, 43, 52, 61], [9, 2]],
  [[26, 35, 44, 53, 62], [24], [10, 3], [8]],
  [[27, 36, 45, 54, 63], [25, 32], [11, 4], [9, 0]],
  [[28, 37, 46, 55], [26, 33, 40], [12, 5], [10, 1]],
  [[29, 38, 47], [27, 34, 41, 48], [13, 6], [11, 2]],
  [[30, 39], [28, 35, 42, 49, 56], [14, 7], [12, 3]],
  [[31], [29, 36, 43, 50, 57], [15], [13, 4]],
  [[30, 37, 44, 51, 58], [14, 5]],
  [[33, 42, 51, 60], [17, 10, 3]],
  [[34, 43, 52, 61], [32], [18, 11, 4], [16]],
  [[35, 44, 53, 62], [33, 40], [19, 12, 5], [17, 8]],
  [[36, 45, 54, 63], [34, 41, 48], [20, 13, 6], [18, 9, 0]],
  [[37, 46, 55], [35, 42, 49, 56], [21, 14, 7], [19, 10, 1]],
  [[38, 47], [36, 43, 50, 57], [22, 15], [20, 11, 2]],
  [[39], [37, 44, 51, 58], [23], [21, 12, 3]],
  [[38, 45, 52, 59], [22, 13, 4]],
  [[41, 50, 59], [25, 18, 11, 4]],
  [[42, 51, 60], [40], [26, 19, 12, 5], [24]],
  [[43, 52, 61], [41, 48], [27, 20, 13, 6], [25, 16]],
  [[44, 53, 62], [42, 49, 56], [28, 21, 14, 7], [26, 17, 8]],
  [[45, 54, 63], [43, 50, 57], [29, 22, 15], [27, 18, 9, 0]],
  [[46, 55], [44, 51, 58], [30, 23], [28, 19, 10, 1]],
  [[47], [45, 52, 59], [31], [29, 20, 11, 2]],
  [[46, 53, 60], [30, 21, 12, 3]],
  [[49, 58], [33, 26, 19, 12, 5]],
  [[50, 59], [48], [34, 27, 20, 13, 6], [32]],
  [[51, 60], [49, 56], [35, 28, 21, 14, 7], [33, 24]],
  [[52, 61], [50, 57], [36, 29, 22, 15], [34, 25, 16]],
  [[53, 62], [51, 58], [37, 30, 23], [35, 26, 17, 8]],
  [[54, 63], [52, 59], [38, 31], [36, 27, 18, 9, 0]],
  [[55], [53, 60], [39], [37, 28, 19, 10, 1]],
  [[54, 61], [38, 29, 20, 11, 2]],
  [[57], [41, 34, 27, 20, 13, 6]],
  [[58], [56], [42, 35, 28, 21, 14, 7], [40]],
  [[59], [57], [43, 36, 29, 22, 15], [41, 32]],
  [[60], [58], [44, 37, 30, 23], [42, 33, 24]],
  [[61], [59], [45, 38, 31], [43, 34, 25, 16]],
  [[62], [60], [46, 39], [44, 35, 26, 17, 8]],
  [[63], [61], [47], [45, 36, 27, 18, 9, 0]],
  [[62], [46, 37, 28, 19, 10, 1]],
  [[49, 42, 35, 28, 21, 14, 7]],
  [[50, 43, 36, 29, 22, 15], [48]],
  [[51, 44, 37, 30, 23], [49, 40]],
  [[52, 45, 38, 31], [50, 41, 32]],
  [[53, 46, 39], [51, 42, 33, 24]],
  [[54, 47], [52, 43, 34, 25, 16]],
  [[55], [53, 44, 35, 26, 17, 8]],
  [[54, 45, 36, 27, 18, 9, 0]]]

/-- Modelled from the spec: per-square straight rays (squares listed
outwards from the square, one list per rank/file direction). -/
def rookRaysTable : List (List (List Nat)) := [
  [[8, 16, 24, 32, 40, 48, 56], [1, 2, 3, 4, 5, 6, 7]],
  [[9, 17, 25, 33, 41, 49, 57], [2, 3, 4, 5, 6, 7], [0]],
  [[10, 18, 26, 34, 42, 50, 58], [3, 4, 5, 6, 7], [1, 0]],
  [[11, 19, 27, 35, 43, 51, 59], [4, 5, 6, 7], [2, 1, 0]],
  [[12, 20, 28, 36, 44, 52, 60], [5, 6, 7], [3, 2, 1, 0]],
  [[13, 21, 29, 37, 45, 53, 61], [6, 7], [4, 3, 2, 1, 0]],
  [[14, 22, 30, 38, 46, 54, 62], [7], [5, 4, 3, 2, 1, 0]],
  [[15, 23, 31, 39, 47, 55, 63], [6, 5, 4, 3, 2, 1, 0]],
  [[16, 24, 32, 40, 48, 56], [0], [9, 10, 11, 12, 13, 14, 15]],
  [[17, 25, 33, 41, 49, 57], [1], [10, 11, 12, 13, 14, 15], [8]],
  [[18, 26, 34, 42, 50, 58], [2], [11, 12, 13, 14, 15], [9, 8]],
  [[19, 27, 35, 43, 51, 59], [3], [12, 13, 14, 15], [10, 9, 8]],
  [[20, 28, 36, 44, 52, 60], [4], [13, 14, 15], [11, 10, 9, 8]],
  [[21, 29, 37, 45, 53, 61], [5], [14, 15], [12, 11, 10, 9, 8]],
  [[22, 30, 38, 46, 54, 62], [6], [15], [13, 12, 11, 10, 9, 8]],
  [[23, 31, 39, 47, 55, 63], [7], [14, 13, 12, 11, 10, 9, 8]],
  [[24, 32, 40, 48, 56], [8, 0], [17, 18, 19, 20, 21, 22, 23]],
  [[25, 33, 41, 49, 57], [9, 1], [18, 19, 20, 21, 22, 23], [16]],
  [[26, 34, 42, 50, 58], [10, 2], [19, 20, 21, 22, 23], [17, 16]],
  [[27, 35, 43, 51, 59], [11, 3], [20, 21, 22, 23], [18, 17, 16]],
  [[28, 36, 44, 52, 60], [12, 4], [21, 22, 23], [19, 18, 17, 16]],
  [[29, 37, 45, 53, 61], [13, 5], [22, 23], [20, 19, 18, 17, 16]],
  [[30, 38, 46, 54, 62], [14, 6], [23], [21, 20, 19, 18, 17, 16]],
  [[31, 39, 47, 55, 63], [15, 7], [22, 21, 20, 19, 18, 17, 16]],
  [[32, 40, 48, 56], [16, 8, 0], [25, 26, 27, 28, 29, 30, 31]],
  [[33, 41, 49, 57], [17, 9, 1], [26, 27, 28, 29, 30, 31], [24]],
  [[34, 42, 50, 58], [18, 10, 2], [27, 28, 29, 30, 31], [25, 24]],
  [[35, 43, 51, 59], [19, 11, 3], [28, 29, 30, 31], [26, 25, 24]],
  [[36, 44, 52, 60], [20, 12, 4], [29, 30, 31], [27, 26, 25, 24]],
  [[37, 45, 53, 61], [21, 13, 5], [30, 31], [28, 27, 26, 25, 24]],
  [[38, 46, 54, 62], [22, 14, 6], [31], [29, 28, 27, 26, 25, 24]],
  [[39, 47, 55, 63], [23, 15, 7], [30, 29, 28, 27, 26, 25, 24]],
  [[40, 48, 56], [24, 16, 8, 0], [33, 34, 35, 36, 37, 38, 39]],
  [[41, 49, 57], [25, 17, 9, 1], [34, 35, 36, 37, 38, 39], [32]],
  [[42, 50, 58], [26, 18, 10, 2], [35, 36, 37, 38, 39], [33, 32]],
  [[43, 51, 59], [27, 19, 11, 3], [36, 37, 38, 39], [34, 33, 32]],
  [[44, 52, 60], [28, 20, 12, 4], [37, 38, 39], [35, 34, 33, 32]],
  [[45, 53, 61], [29, 21, 13, 5], [38, 39], [36, 35, 34, 33, 32]],
  [[46, 54, 62], [30, 22, 14, 6], [39], [37, 36, 35, 34, 33, 32]],
  [[47, 55, 63], [31, 23, 15, 7], [38, 37, 36, 35, 34, 33, 32]],
  [[48, 56], [32, 24, 16, 8, 0], [41, 42, 43, 44, 45, 46, 47]],
  [[49, 57], [33, 25, 17, 9, 1], [42, 43, 44, 45, 46, 47], [40]],
  [[50, 58], [34, 26, 18, 10, 2], [43, 44, 45, 46, 47], [41, 40]],
  [[51, 59], [35, 27, 19, 11, 3], [44, 45, 46, 47], [42, 41, 40]],
  [[52, 60], [36, 28, 20, 12, 4], [45, 46, 47], [43, 42, 41, 40]],
  [[53, 61], [37, 29, 21, 13, 5], [46, 47], [44, 43, 42, 41, 40]],
  [[54, 62], [38, 30, 22, 14, 6], [47], [45, 44, 43, 42, 41, 40]],
  [[55, 63], [39, 31, 23, 15, 7], [46, 45, 44, 43, 42, 41, 40]],
  [[56], [40, 32, 24, 16, 8, 0], [49, 50, 51, 52, 53, 54, 55]],
  [[57], [41, 33, 25, 17, 9, 1], [50, 51, 52, 53, 54, 55], [48]],
  [[58], [42, 34, 26, 18, 10, 2], [51, 52, 53, 54, 55], [49, 48]],
  [[59], [43, 35, 27, 19, 11, 3], [52, 53, 54, 55], [50, 49, 48]],
  [[60], [44, 36, 28, 20, 12, 4], [53, 54, 55], [51, 50, 49, 48]],
  [[61], [45, 37, 29, 21, 13, 5], [54, 55], [52, 51, 50, 49, 48]],
  [[62], [46, 38, 30, 22, 14, 6], [55], [53, 52, 51, 50, 49, 48]],
  [[63], [47, 39, 31, 23, 15, 7], [54, 53, 52, 51, 50, 49, 48]],
  [[48, 40, 32, 24, 16, 8, 0], [57, 58, 59, 60, 61, 62, 63]],
  [[49, 41, 33, 25, 17, 9, 1], [58, 59, 60, 61, 62, 63], [56]],
  [[50, 42, 34, 26, 18, 10, 2], [59, 60, 61, 62, 63], [57, 56]],
  [[51, 43, 35, 27, 19, 11, 3], [60, 61, 62, 63], [58, 57, 56]],
  [[52, 44, 36, 28, 20, 12, 4], [61, 62, 63], [59, 58, 57, 56]],
  [[53, 45, 37, 29, 21, 13, 5], [62, 63], [60, 59, 58, 57, 56]],
  [[54, 46, 38, 30, 22, 14, 6], [63], [61, 60, 59, 58, 57, 56]],
  [[55, 47, 39, 31, 23, 15, 7], [62, 61, 60, 59, 58, 57, 56]]]

/-- Modelled from the spec: the bishop attack set the rotated-occupancy
lookup of `BishopAttacksFrom` yields for occupancy `occ` — every diagonal
ray truncated at its first blocker (`bishopPred` states the same
reachability condition square-by-square). -/
def bishopAttacksOn (occ sq : Nat) : Nat := walkRays occ (bishopRaysTable.getD sq [])

/-- Modelled from the spec: the rook attack set the rotated-occupancy lookup
of `RookAttacksFrom` yields for occupancy `occ` — every straight ray
truncated at its first blocker (`rookPred` states the same reachability
condition square-by-square). -/
def rookAttacksOn (occ sq : Nat) : Nat := walkRays occ (rookRaysTable.getD sq [])

/-! ## Castling constants and rotated square permutations -/

/-- Modelled from the spec: castling-rights bitmask constants. -/
def CastlingNone : Nat := 0

def CastlingWhiteKingSide : Nat := 1
def CastlingWhiteQueenSide : Nat := 2
def CastlingBlackKingSide : Nat := 4
def CastlingBlackQueenSide : Nat := 8
def CastlingWhite : Nat := CastlingWhiteKingSide ||| CastlingWhiteQueenSide
def CastlingBlack : Nat := CastlingBlackKingSide ||| CastlingBlackQueenSide
def Castling : Nat := CastlingWhite ||| CastlingBlack

/-- Go `x &^ m` (AND NOT) over 64-bit values. -/
def andNot (x m : Nat) : Nat := x &&& (BBAll ^^^ m)

/-- Modelled from the spec: the fixed 90° square permutation `SquaresL90`. -/
def SquaresL90 (sq : Nat) : Nat := (sq % 8) * 8 + (7 - sq / 8)

/-- Modelled from the spec: the fixed +45° square permutation `SquaresL45`. -/
def SquaresL45 (sq : Nat) : Nat := (sq / 8 + sq % 8) % 8 * 8 + sq % 8

/-- Modelled from the spec: the fixed −45° square permutation `SquaresR45`. -/
def SquaresR45 (sq : Nat) : Nat := (sq / 8 + 7 - sq % 8) % 8 * 8 + sq % 8

/-! ## The Polyglot random array -/

/-- Modelled from the spec: the opaque fixed random-constant table
`PolyglotRandomArray` (781 values).  Its concrete values are out of scope per
§1 of the spec ("supplied as an opaque fixed table"); a fixed injective-style
mixing function stands in for the embedded table. -/
def PolyglotRandomArray (i : Nat) : Nat :=
  let m : Nat := 2 ^ 64
  let z1 : Nat := (i * 6364136223846793005 + 1442695040888963407) % m
  let z2 : Nat := ((z1 ^^^ (z1 >>> 30)) * 13787848793156543929) % m
  let z3 : Nat := ((z2 ^^^ (z2 >>> 27)) * 10723151780598845931) % m
  (z3 ^^^ (z3 >>> 31)) ||| 1

/-- Modelled from the spec: `BBSquaresL90[i]` (the mask of the permuted
square, consistently with the per-square updates in `RemovePieceAt`). -/
def BBSquaresL90 (sq : Nat) : Nat := BBSquares (SquaresL90 sq)

/-- Modelled from the spec: `BBSquaresL45[i]`. -/
def BBSquaresL45 (sq : Nat) : Nat := BBSquares (SquaresL45 sq)

/-- Modelled from the spec: `BBSquaresR45[i]`. -/
def BBSquaresR45 (sq : Nat) : Nat := BBSquares (SquaresR45 sq)

/-! ## Stacks and the transposition table

Modelled from the spec: the `Stack` type of the missing constants file is a
LIFO stack (§3 "four parallel history stacks … plus a move-history stack"),
embedded as a Lean list with its top at the head.  The Go
`map[uint64]int` transposition table (absent keys read as 0) is embedded as
an association list. -/

/-- `Stack.Pop` with a default for the empty stack (popping an empty stack
is a caller error in Go; the spec makes unbalanced `Pop` undefined). -/
def popL {α : Type} (l : List α) (d : α) : α × List α :=
  match l with
  | [] => (d, [])
  | x :: xs => (x, xs)

/-- Read of the Go transposition map: missing keys are 0. -/
def tGet (t : List (Nat × Int)) (h : Nat) : Int :=
  ((t.find? (fun p => p.1 == h)).map (·.2)).getD 0

/-- The Go `m[h]++` / `m[h]--` on the transposition map. -/
def tBump (t : List (Nat × Int)) (h : Nat) (d : Int) : List (Nat × Int) :=
  if (t.find? (fun p => p.1 == h)).isSome then
    t.map (fun p => if p.1 == h then (p.1, p.2 + d) else p)
  else t ++ [(h, d)]

/-! ## The Bitboard position (bitboard.go) -/

/-- The `Bitboard` struct of `bitboard.go`.  `occupiedCo[2]uint64` becomes
the two fields `occupiedCoW`/`occupiedCoB`, `kingSquares[2]int` becomes
`kingSquareW`/`kingSquareB`, and the `[64]PieceTypes` cache becomes a
function. -/
structure Bitboard where
  pawns : Nat
  knights : Nat
  bishops : Nat
  rooks : Nat
  queens : Nat
  kings : Nat
  occupiedCoW : Nat
  occupiedCoB : Nat
  occupied : Nat
  occupiedL90 : Nat
  occupiedL45 : Nat
  occupiedR45 : Nat
  kingSquareW : Nat
  kingSquareB : Nat
  pieces : Nat → PieceTypes
  epSquare : Nat
  castlingRights : Nat
  turn : Colors
  fullMoveNumber : Int
  halfMoveClock : Int
  halfMoveClockStack : List Int
  capturedPieceStack : List PieceTypes
  castlingRightStack : List Nat
  epSquareStack : List Nat
  moveStack : List (Option Move)
  incrementalZobristHash : Nat
  transpositions : List (Nat × Int)

/-- `b.occupiedCo[color]`. -/
def occCo (b : Bitboard) : Colors → Nat
  | White => b.occupiedCoW
  | Black => b.occupiedCoB

/-- `b.occupiedCo[color] = v`. -/
def setOccCo (b : Bitboard) (c : Colors) (v : Nat) : Bitboard :=
  match c with
  | White => { b with occupiedCoW := v }
  | Black => { b with occupiedCoB := v }

/-- `b.kingSquares[color]`. -/
def kingSq (b : Bitboard) : Colors → Nat
  | White => b.kingSquareW
  | Black => b.kingSquareB

/-- Gets the piece type at the given square (`PieceTypeAt`). -/
def PieceTypeAt (b : Bitboard) (square : Nat) : PieceTypes := b.pieces square

/-- Removes a piece from the given square if present (`RemovePieceAt`). -/
def RemovePieceAt (b : Bitboard) (square : Nat) : Bitboard :=
  let pieceType := b.pieces square
  if pieceType = PieceTypes.None then b
  else
    let mask := BBSquares square
    let b :=
      if pieceType = Pawn then { b with pawns := b.pawns ^^^ mask }
      else if pieceType = Knight then { b with knights := b.knights ^^^ mask }
      else if pieceType = Bishop then { b with bishops := b.bishops ^^^ mask }
      else if pieceType = Rook then { b with rooks := b.rooks ^^^ mask }
      else if pieceType = Queen then { b with queens := b.queens ^^^ mask }
      else { b with kings := b.kings ^^^ mask }
    let color := if b.occupiedCoB &&& mask > 0 then Black else White
    let b := { b with pieces := fun s => if s = square then PieceTypes.None else b.pieces s }
    let b := { b with occupied := b.occupied ^^^ mask }
    let b := setOccCo b color (occCo b color ^^^ mask)
    let b := { b with occupiedL90 := b.occupiedL90 ^^^ BBSquares (SquaresL90 square) }
    let b := { b with occupiedR45 := b.occupiedR45 ^^^ BBSquares (SquaresR45 square) }
    let b := { b with occupiedL45 := b.occupiedL45 ^^^ BBSquares (SquaresL45 square) }
    let pieceIndex := if color = Black then (pieceType.num - 1) * 2 else (pieceType.num - 1) * 2 + 1
    { b with incrementalZobristHash :=
        b.incrementalZobristHash ^^^
          PolyglotRandomArray (64 * pieceIndex + 8 * rankIndex square + fileIndex square) }

/-- Sets a piece at the given square, replacing any occupant (`SetPieceAt`). -/
def SetPieceAt (b : Bitboard) (square : Nat) (piece : Piece) : Bitboard :=
  let b := RemovePieceAt b square
  let b := { b with pieces := fun s => if s = square then piece.pieceType else b.pieces s }
  let mask := BBSquares square
  let b :=
    if piece.pieceType = Pawn then { b with pawns := b.pawns ||| mask }
    else if piece.pieceType = Knight then { b with knights := b.knights ||| mask }
    else if piece.pieceType = Bishop then { b with bishops := b.bishops ||| mask }
    else if piece.pieceType = Rook then { b with rooks := b.rooks ||| mask }
    else if piece.pieceType = Queen then { b with queens := b.queens ||| mask }
    else if piece.pieceType = King then
      match piece.color with
      | White => { b with kings := b.kings ||| mask, kingSquareW := square }
      | Black => { b with kings := b.kings ||| mask, kingSquareB := square }
    else b
  let b := { b with occupied := b.occupied ^^^ mask }
  let b := setOccCo b piece.color (occCo b piece.color ^^^ mask)
  let b := { b with occupiedL90 := b.occupiedL90 ^^^ BBSquares (SquaresL90 square) }
  let b := { b with occupiedR45 := b.occupiedR45 ^^^ BBSquares (SquaresR45 square) }
  let b := { b with occupiedL45 := b.occupiedL45 ^^^ BBSquares (SquaresL45 square) }
  let pieceIndex :=
    if piece.color = Black then (piece.pieceType.num - 1) * 2 else (piece.pieceType.num - 1) * 2 + 1
  { b with incrementalZobristHash :=
      b.incrementalZobristHash ^^^
        PolyglotRandomArray (64 * pieceIndex + 8 * rankIndex square + fileIndex square) }

/-! ## Attack generation -/

def KnightAttacksFrom (_b : Bitboard) (square : Nat) : Nat := BBKnightAttacks square

def KingAttacksFrom (_b : Bitboard) (square : Nat) : Nat := BBKingAttacks square

/-- `RookAttacksFrom`: the rotated-occupancy table lookups, modelled from the
spec as the full straight-ray attack set over `occupied`. -/
def RookAttacksFrom (b : Bitboard) (square : Nat) : Nat := rookAttacksOn b.occupied square

/-- `BishopAttacksFrom`: the rotated-occupancy table lookups, modelled from
the spec as the full diagonal-ray attack set over `occupied`. -/
def BishopAttacksFrom (b : Bitboard) (square : Nat) : Nat := bishopAttacksOn b.occupied square

def QueenAttacksFrom (b : Bitboard) (square : Nat) : Nat :=
  RookAttacksFrom b square ||| BishopAttacksFrom b square

/-- `PawnMovesFrom`. -/
def PawnMovesFrom (b : Bitboard) (square : Nat) : Nat :=
  let targets := BBPawnF1 b.turn square &&& (BBAll ^^^ b.occupied)
  let targets :=
    if targets > 0 then targets ||| (BBPawnF2 b.turn square &&& (BBAll ^^^ b.occupied))
    else targets
  if b.epSquare = 0 then
    targets ||| (BBPawnAttacks b.turn square &&& occCo b b.turn.flip)
  else
    targets ||| (BBPawnAttacks b.turn square &&& (occCo b b.turn.flip ||| BBSquares b.epSquare))

/-- Checks if the given side attacks the given square (`IsAttackedBy`).
Pinned pieces still count as attackers. -/
def IsAttackedBy (b : Bitboard) (color : Colors) (square : Nat) : Bool :=
  if BBPawnAttacks color.flip square &&& (b.pawns ||| b.bishops) &&& occCo b color > 0 then true
  else if KnightAttacksFrom b square &&& b.knights &&& occCo b color > 0 then true
  else if BishopAttacksFrom b square &&& (b.bishops ||| b.queens) &&& occCo b color > 0 then true
  else if RookAttacksFrom b square &&& (b.rooks ||| b.queens) &&& occCo b color > 0 then true
  else if KingAttacksFrom b square &&& (b.kings ||| b.queens) &&& occCo b color > 0 then true
  else false

/-- `AttackerMask`. -/
def AttackerMask (b : Bitboard) (color : Colors) (square : Nat) : Nat :=
  let attackers := BBPawnAttacks color.flip square &&& b.pawns
  let attackers := attackers ||| (KnightAttacksFrom b square &&& b.knights)
  let attackers := attackers ||| (BishopAttacksFrom b square &&& (b.bishops ||| b.queens))
  let attackers := attackers ||| (RookAttacksFrom b square &&& (b.rooks ||| b.queens))
  let attackers := attackers ||| (KingAttacksFrom b square &&& b.kings)
  attackers &&& occCo b color

/-- Checks if the current side to move is in check (`IsCheck`). -/
def IsCheck (b : Bitboard) : Bool := IsAttackedBy b b.turn.flip (kingSq b b.turn)

/-- Checks if the king of the side that just moved is attacked
(`WasIntoCheck`). -/
def WasIntoCheck (b : Bitboard) : Bool := IsAttackedBy b b.turn (kingSq b b.turn.flip)

/-! ## Zobrist hashing -/

/-- `BoardZobristHash` called with an explicit array (as `Reset`/`Clear`
do): recomputes the board term by scanning the black then the white
occupancy. -/
def BoardZobristHashArr (b : Bitboard) : Nat :=
  let h := (bits b.occupiedCoB).foldl
    (fun zh square =>
      zh ^^^ PolyglotRandomArray
        (64 * (((b.pieces square).num - 1) * 2) + 8 * rankIndex square + fileIndex square)) 0
  (bits b.occupiedCoW).foldl
    (fun zh square =>
      zh ^^^ PolyglotRandomArray
        (64 * (((b.pieces square).num - 1) * 2 + 1) + 8 * rankIndex square + fileIndex square)) h

/-- `ZobristHash(nil)`: the full position hash, combining the incrementally
maintained board term with the castling, en-passant-file and turn terms. -/
def ZobristHash (b : Bitboard) : Nat :=
  let zh := b.incrementalZobristHash
  let zh := if b.castlingRights &&& CastlingWhiteKingSide > 0 then zh ^^^ PolyglotRandomArray 768 else zh
  let zh := if b.castlingRights &&& CastlingWhiteQueenSide > 0 then zh ^^^ PolyglotRandomArray 769 else zh
  let zh := if b.castlingRights &&& CastlingBlackKingSide > 0 then zh ^^^ PolyglotRandomArray 770 else zh
  let zh := if b.castlingRights &&& CastlingBlackQueenSide > 0 then zh ^^^ PolyglotRandomArray 771 else zh
  let zh :=
    if b.epSquare > 0 then
      let epMask :=
        if b.turn = White then shiftDown (BBSquares b.epSquare) else shiftUp (BBSquares b.epSquare)
      let epMask := shiftLeft epMask ||| shiftRight epMask
      if epMask &&& b.pawns &&& occCo b b.turn > 0 then
        zh ^^^ PolyglotRandomArray (772 + fileIndex b.epSquare)
      else zh
    else zh
  if b.turn = White then zh ^^^ PolyglotRandomArray 780 else zh

/-! ## Reset -/

/-- The board state `Clear` produces apart from hash/transpositions. -/
def clearedCore : Bitboard where
  pawns := BBVoid
  knights := BBVoid
  bishops := BBVoid
  rooks := BBVoid
  queens := BBVoid
  kings := BBVoid
  occupiedCoW := BBVoid
  occupiedCoB := BBVoid
  occupied := BBVoid
  occupiedL90 := BBVoid
  occupiedL45 := BBVoid
  occupiedR45 := BBVoid
  kingSquareW := E1
  kingSquareB := E8
  pieces := fun _ => PieceTypes.None
  epSquare := 0
  castlingRights := CastlingNone
  turn := White
  fullMoveNumber := 1
  halfMoveClock := 0
  halfMoveClockStack := []
  capturedPieceStack := []
  castlingRightStack := []
  epSquareStack := []
  moveStack := []
  incrementalZobristHash := 0
  transpositions := []

/-- Clears the board (`Clear`). -/
def ClearB (_b : Bitboard) : Bitboard :=
  let b := clearedCore
  let b := { b with incrementalZobristHash := BoardZobristHashArr b }
  { b with transpositions := [(ZobristHash b, 1)] }

/-- Restores the starting position (`Reset`). -/
def resetBoard : Bitboard :=
  let pawns := BBRank2 ||| BBRank7
  let knights := BBSquares B1 ||| BBSquares G1 ||| BBSquares B8 ||| BBSquares G8
  let bishops := BBSquares C1 ||| BBSquares F1 ||| BBSquares C8 ||| BBSquares F8
  let rooks := BBSquares A1 ||| BBSquares H1 ||| BBSquares A8 ||| BBSquares H8
  let queens := BBSquares D1 ||| BBSquares D8
  let kings := BBSquares E1 ||| BBSquares E8
  let occupied := BBRank1 ||| BBRank2 ||| BBRank7 ||| BBRank8
  let piecesF : Nat → PieceTypes := fun i =>
    let mask := BBSquares i
    if mask &&& pawns > 0 then Pawn
    else if mask &&& knights > 0 then Knight
    else if mask &&& bishops > 0 then Bishop
    else if mask &&& rooks > 0 then Rook
    else if mask &&& queens > 0 then Queen
    else if mask &&& kings > 0 then King
    else PieceTypes.None
  let rot (table : Nat → Nat) : Nat :=
    (List.range 64).foldl (fun acc i => if BBSquares i &&& occupied > 0 then acc ||| table i else acc)
      BBVoid
  let b : Bitboard :=
    { clearedCore with
      pawns := pawns, knights := knights, bishops := bishops, rooks := rooks,
      queens := queens, kings := kings,
      occupiedCoW := BBRank1 ||| BBRank2, occupiedCoB := BBRank7 ||| BBRank8,
      occupied := occupied,
      occupiedL90 := rot BBSquaresL90, occupiedR45 := rot BBSquaresR45,
      occupiedL45 := rot BBSquaresL45,
      pieces := piecesF, castlingRights := Castling }
  let b := { b with incrementalZobristHash := BoardZobristHashArr b }
  { b with transpositions := [(ZobristHash b, 1)] }

/-! ## Move generation -/

/-- The four-way promotion expansion of the white pawn branches (destination
on rank 8 yields Queen, Knight, Rook, Bishop in this order). -/
def promoMovesW (fromSquare toSquare : Nat) : List Move :=
  if rankIndex toSquare ≠ 7 then [⟨fromSquare, toSquare, PieceTypes.None⟩]
  else
    [⟨fromSquare, toSquare, Queen⟩, ⟨fromSquare, toSquare, Knight⟩,
     ⟨fromSquare, toSquare, Rook⟩, ⟨fromSquare, toSquare, Bishop⟩]

/-- The four-way promotion expansion of the black pawn branches. -/
def promoMovesB (fromSquare toSquare : Nat) : List Move :=
  if rankIndex toSquare ≠ 0 then [⟨fromSquare, toSquare, PieceTypes.None⟩]
  else
    [⟨fromSquare, toSquare, Queen⟩, ⟨fromSquare, toSquare, Knight⟩,
     ⟨fromSquare, toSquare, Rook⟩, ⟨fromSquare, toSquare, Bishop⟩]

/-- The condition under which the generator offers white kingside castling
(rights bit, f1/g1 empty, e1/f1/g1 not attacked). -/
def castleWKOffered (b : Bitboard) : Bool :=
  b.castlingRights &&& CastlingWhiteKingSide > 0 &&
    (BBSquares F1 ||| BBSquares G1) &&& b.occupied = 0 &&
    !IsAttackedBy b Black E1 && !IsAttackedBy b Black F1 && !IsAttackedBy b Black G1

/-- The condition under which the generator offers white queenside castling. -/
def castleWQOffered (b : Bitboard) : Bool :=
  b.castlingRights &&& CastlingWhiteQueenSide > 0 &&
    (BBSquares B1 ||| BBSquares C1 ||| BBSquares D1) &&& b.occupied = 0 &&
    !IsAttackedBy b Black C1 && !IsAttackedBy b Black D1 && !IsAttackedBy b Black E1

/-- The condition under which the generator offers black kingside castling. -/
def castleBKOffered (b : Bitboard) : Bool :=
  b.castlingRights &&& CastlingBlackKingSide > 0 &&
    (BBSquares F8 ||| BBSquares G8) &&& b.occupied = 0 &&
    !IsAttackedBy b White E8 && !IsAttackedBy b White F8 && !IsAttackedBy b White G8

/-- The condition under which the generator offers black queenside castling. -/
def castleBQOffered (b : Bitboard) : Bool :=
  b.castlingRights &&& CastlingBlackQueenSide > 0 &&
    (BBSquares B8 ||| BBSquares C8 ||| BBSquares D8) &&& b.occupied = 0 &&
    !IsAttackedBy b White C8 && !IsAttackedBy b White D8 && !IsAttackedBy b White E8

/-- `GeneratePseudoLegalMoves`, the `bitScan` loops expressed as list
traversals of the same masks in the same order. -/
def GeneratePseudoLegalMoves (b : Bitboard)
    (castling pawns knights bishops rooks queens king : Bool) : List Move :=
  let colorSection : List Move :=
    if b.turn = White then
      (if castling then
        (if castleWKOffered b then [⟨E1, G1, PieceTypes.None⟩] else []) ++
          (if castleWQOffered b then [⟨E1, C1, PieceTypes.None⟩] else [])
       else []) ++
      (if pawns then
        let movers := b.pawns &&& b.occupiedCoW
        let epMoves :=
          if b.epSquare > 0 then
            (bits (BBPawnAttacks Black b.epSquare &&& movers)).map
              (fun fromSquare => (⟨fromSquare, b.epSquare, PieceTypes.None⟩ : Move))
          else []
        let capR := (bits (shiftUpRight movers &&& b.occupiedCoB)).flatMap
          (fun toSquare => promoMovesW (toSquare - 9) toSquare)
        let capL := (bits (shiftUpLeft movers &&& b.occupiedCoB)).flatMap
          (fun toSquare => promoMovesW (toSquare - 7) toSquare)
        let single := shiftUp movers &&& (BBAll ^^^ b.occupied)
        let fwd1 := (bits single).flatMap (fun toSquare => promoMovesW (toSquare - 8) toSquare)
        let fwd2 := (bits (shiftUp single &&& BBRank4 &&& (BBAll ^^^ b.occupied))).map
          (fun toSquare => (⟨toSquare - 16, toSquare, PieceTypes.None⟩ : Move))
        epMoves ++ capR ++ capL ++ fwd1 ++ fwd2
       else [])
    else
      (if castling then
        (if castleBKOffered b then [⟨E8, G8, PieceTypes.None⟩] else []) ++
          (if castleBQOffered b then [⟨E8, C8, PieceTypes.None⟩] else [])
       else []) ++
      (if pawns then
        let movers := b.pawns &&& b.occupiedCoB
        let epMoves :=
          if b.epSquare > 0 then
            (bits (BBPawnAttacks White b.epSquare &&& movers)).map
              (fun fromSquare => (⟨fromSquare, b.epSquare, PieceTypes.None⟩ : Move))
          else []
        let capL := (bits (shiftDownLeft movers &&& b.occupiedCoW)).flatMap
          (fun toSquare => promoMovesB (toSquare + 9) toSquare)
        let capR := (bits (shiftDownRight movers &&& b.occupiedCoW)).flatMap
          (fun toSquare => promoMovesB (toSquare + 7) toSquare)
        let single := shiftDown movers &&& (BBAll ^^^ b.occupied)
        let fwd1 := (bits single).flatMap (fun toSquare => promoMovesB (toSquare + 8) toSquare)
        let fwd2 := (bits (shiftDown single &&& BBRank5 &&& (BBAll ^^^ b.occupied))).map
          (fun toSquare => (⟨toSquare + 16, toSquare, PieceTypes.None⟩ : Move))
        epMoves ++ capL ++ capR ++ fwd1 ++ fwd2
       else [])
  let pieceMoves (mask : Nat) (attacksFrom : Nat → Nat) : List Move :=
    (bits (mask &&& occCo b b.turn)).flatMap (fun fromSquare =>
      (bits (attacksFrom fromSquare &&& (BBAll ^^^ occCo b b.turn))).map
        (fun toSquare => (⟨fromSquare, toSquare, PieceTypes.None⟩ : Move)))
  colorSection ++
    (if knights then pieceMoves b.knights (KnightAttacksFrom b) else []) ++
    (if bishops then pieceMoves b.bishops (BishopAttacksFrom b) else []) ++
    (if rooks then pieceMoves b.rooks (RookAttacksFrom b) else []) ++
    (if queens then pieceMoves b.queens (QueenAttacksFrom b) else []) ++
    (if king then
      let fromSquare := kingSq b b.turn
      (bits (KingAttacksFrom b fromSquare &&& (BBAll ^^^ occCo b b.turn))).map
        (fun toSquare => (⟨fromSquare, toSquare, PieceTypes.None⟩ : Move))
     else [])

/-- `PseudoLegalMoveCount`, faithful to the source including the
black "Pawns one forward" branch that adds only the promotion bonus. -/
def PseudoLegalMoveCount (b : Bitboard) : Nat :=
  let colorCount : Nat :=
    if b.turn = White then
      (if castleWKOffered b then 1 else 0) +
      (if castleWQOffered b then 1 else 0) +
      (let movers := b.pawns &&& b.occupiedCoW
       (if b.epSquare > 0 then popCount (BBPawnAttacks Black b.epSquare &&& movers) else 0) +
       (let moves := shiftUpRight movers &&& b.occupiedCoB
        popCount (moves &&& BBRank8) * 3 + popCount moves) +
       (let moves := shiftUpLeft movers &&& b.occupiedCoB
        popCount (moves &&& BBRank8) * 3 + popCount moves) +
       (let moves := shiftUp movers &&& (BBAll ^^^ b.occupied)
        popCount (moves &&& BBRank8) * 3 + popCount moves +
          popCount (shiftUp moves &&& BBRank4 &&& (BBAll ^^^ b.occupied))))
    else
      (if castleBKOffered b then 1 else 0) +
      (if castleBQOffered b then 1 else 0) +
      (let movers := b.pawns &&& b.occupiedCoB
       (if b.epSquare > 0 then popCount (BBPawnAttacks White b.epSquare &&& movers) else 0) +
       (let moves := shiftDownLeft movers &&& b.occupiedCoW
        popCount (moves &&& BBRank1) * 3 + popCount moves) +
       (let moves := shiftDownRight movers &&& b.occupiedCoW
        popCount (moves &&& BBRank1) * 3 + popCount moves) +
       (let moves := shiftDown movers &&& (BBAll ^^^ b.occupied)
        popCount (moves &&& BBRank1) * 3 +
          popCount (shiftDown moves &&& BBRank5 &&& (BBAll ^^^ b.occupied))))
  let pieceCount (mask : Nat) (attacksFrom : Nat → Nat) : Nat :=
    (bits (mask &&& occCo b b.turn)).foldl
      (fun count fromSquare =>
        count + popCount (attacksFrom fromSquare &&& (BBAll ^^^ occCo b b.turn))) 0
  colorCount +
    pieceCount b.knights (KnightAttacksFrom b) +
    pieceCount b.bishops (BishopAttacksFrom b) +
    pieceCount b.rooks (RookAttacksFrom b) +
    pieceCount b.queens (QueenAttacksFrom b) +
    popCount (KingAttacksFrom b (kingSq b b.turn) &&& (BBAll ^^^ occCo b b.turn))

/-- `IsPseudoLegal`. -/
def IsPseudoLegal (b : Bitboard) (move : Option Move) : Bool :=
  match move with
  | Option.none => false
  | some move =>
    let piece := PieceTypeAt b move.fromSquare
    if piece = PieceTypes.None then false
    else
      let fromMask := BBSquares move.fromSquare
      let toMask := BBSquares move.toSquare
      if occCo b b.turn &&& fromMask = 0 then false
      else if occCo b b.turn &&& toMask > 0 then false
      else if move.promotion ≠ PieceTypes.None ∧ piece ≠ Pawn then false
      else if move.promotion ≠ PieceTypes.None ∧ b.turn = White ∧ rankIndex move.toSquare ≠ 7 then
        false
      else if move.promotion ≠ PieceTypes.None ∧ b.turn = Black ∧ rankIndex move.toSquare ≠ 0 then
        false
      else if piece = King then
        if b.turn = White ∧ move.fromSquare = E1 ∧ move.toSquare = G1 ∧
            b.castlingRights &&& CastlingWhiteKingSide > 0 ∧
            (BBSquares F1 ||| BBSquares G1) &&& b.occupied = 0 then true
        else if b.turn = White ∧ move.fromSquare = E1 ∧ move.toSquare = C1 ∧
            b.castlingRights &&& CastlingWhiteQueenSide > 0 ∧
            (BBSquares B1 ||| BBSquares C1 ||| BBSquares D1) &&& b.occupied = 0 then true
        else if b.turn = Black ∧ move.fromSquare = E8 ∧ move.toSquare = G8 ∧
            b.castlingRights &&& CastlingBlackKingSide > 0 ∧
            (BBSquares F8 ||| BBSquares G8) &&& b.occupied = 0 then true
        else if b.turn = Black ∧ move.fromSquare = E8 ∧ move.toSquare = C8 ∧
            b.castlingRights &&& CastlingBlackQueenSide > 0 ∧
            (BBSquares B8 ||| BBSquares C8 ||| BBSquares D8) &&& b.occupied = 0 then true
        else KingAttacksFrom b move.fromSquare &&& toMask > 0
      else if piece = Pawn then
        if move.promotion = PieceTypes.None ∧ b.turn = White ∧ rankIndex move.toSquare = 7 then
          false
        else if move.promotion = PieceTypes.None ∧ b.turn = Black ∧ rankIndex move.toSquare = 0 then
          false
        else PawnMovesFrom b move.fromSquare &&& toMask > 0
      else if piece = Queen then QueenAttacksFrom b move.fromSquare &&& toMask > 0
      else if piece = Rook then RookAttacksFrom b move.fromSquare &&& toMask > 0
      else if piece = Bishop then BishopAttacksFrom b move.fromSquare &&& toMask > 0
      else if piece = Knight then KnightAttacksFrom b move.fromSquare &&& toMask > 0
      else false

/-! ## Make / unmake -/

/-- `Push`: updates the position with the given move (`none` is the null
move) and records the previous state on the history stacks. -/
def Push (b : Bitboard) (move : Option Move) : Bitboard :=
  let b := if b.turn = Black then { b with fullMoveNumber := b.fullMoveNumber + 1 } else b
  let capturedPiece :=
    match move with
    | Option.none => PieceTypes.None
    | some m => PieceTypeAt b m.toSquare
  let b := { b with
    halfMoveClockStack := b.halfMoveClock :: b.halfMoveClockStack,
    castlingRightStack := b.castlingRights :: b.castlingRightStack,
    capturedPieceStack := capturedPiece :: b.capturedPieceStack,
    epSquareStack := b.epSquare :: b.epSquareStack,
    moveStack := move :: b.moveStack }
  match move with
  | Option.none => { b with turn := b.turn.flip, epSquare := 0, halfMoveClock := b.halfMoveClock + 1 }
  | some move =>
    let pieceType := PieceTypeAt b move.fromSquare
    let b :=
      if pieceType = Pawn ∨ capturedPiece ≠ PieceTypes.None then { b with halfMoveClock := 0 }
      else { b with halfMoveClock := b.halfMoveClock + 1 }
    let pieceType := if move.promotion ≠ PieceTypes.None then move.promotion else pieceType
    let b := RemovePieceAt b move.fromSquare
    let b := { b with epSquare := 0 }
    let diff := ((move.toSquare : Int) - (move.fromSquare : Int)).natAbs
    let b :=
      if pieceType = Pawn then
        let b :=
          if (diff = 7 ∨ diff = 9) ∧ b.occupied &&& BBSquares move.toSquare = 0 then
            if b.turn = White then RemovePieceAt b (move.toSquare - 8)
            else RemovePieceAt b (move.toSquare + 8)
          else b
        if diff = 16 then
          if b.turn = White then { b with epSquare := move.toSquare - 8 }
          else { b with epSquare := move.toSquare + 8 }
        else b
      else b
    let b :=
      if move.fromSquare = E1 then
        { b with castlingRights := andNot b.castlingRights CastlingWhite }
      else if move.fromSquare = E8 then
        { b with castlingRights := andNot b.castlingRights CastlingBlack }
      else if move.fromSquare = A1 ∨ move.toSquare = A1 then
        { b with castlingRights := andNot b.castlingRights CastlingWhiteQueenSide }
      else if move.fromSquare = A8 ∨ move.toSquare = A8 then
        { b with castlingRights := andNot b.castlingRights CastlingBlackQueenSide }
      else if move.fromSquare = H1 ∨ move.toSquare = H1 then
        { b with castlingRights := andNot b.castlingRights CastlingWhiteKingSide }
      else if move.fromSquare = H8 ∨ move.toSquare = H8 then
        { b with castlingRights := andNot b.castlingRights CastlingBlackKingSide }
      else b
    let b :=
      if pieceType = King then
        if move.fromSquare = E1 ∧ move.toSquare = G1 then
          RemovePieceAt (SetPieceAt b F1 ⟨Rook, White⟩) H1
        else if move.fromSquare = E1 ∧ move.toSquare = C1 then
          RemovePieceAt (SetPieceAt b D1 ⟨Rook, White⟩) A1
        else if move.fromSquare = E8 ∧ move.toSquare = G8 then
          RemovePieceAt (SetPieceAt b F8 ⟨Rook, Black⟩) H8
        else if move.fromSquare = E8 ∧ move.toSquare = C8 then
          RemovePieceAt (SetPieceAt b D8 ⟨Rook, Black⟩) A8
        else b
      else b
    let b := SetPieceAt b move.toSquare ⟨pieceType, b.turn⟩
    let b := { b with turn := b.turn.flip }
    { b with transpositions := tBump b.transpositions (ZobristHash b) 1 }

/-- `Pop`: restores the previous position and returns the last move. -/
def Pop (b : Bitboard) : Option Move × Bitboard :=
  let (move, ms) := popL b.moveStack Option.none
  let b := { b with moveStack := ms }
  let b := { b with transpositions := tBump b.transpositions (ZobristHash b) (-1) }
  let b := if b.turn = White then { b with fullMoveNumber := b.fullMoveNumber - 1 } else b
  let (hm, s1) := popL b.halfMoveClockStack (0 : Int)
  let b := { b with halfMoveClock := hm, halfMoveClockStack := s1 }
  let (cr, s2) := popL b.castlingRightStack 0
  let b := { b with castlingRights := cr, castlingRightStack := s2 }
  let (ep, s3) := popL b.epSquareStack 0
  let b := { b with epSquare := ep, epSquareStack := s3 }
  let (capturedPiece, s4) := popL b.capturedPieceStack PieceTypes.None
  let b := { b with capturedPieceStack := s4 }
  let capturedPieceColor := b.turn
  match move with
  | Option.none => (Option.none, { b with turn := b.turn.flip })
  | some move =>
    let piece := PieceTypeAt b move.toSquare
    let piece := if move.promotion ≠ PieceTypes.None then Pawn else piece
    let b := SetPieceAt b move.fromSquare ⟨piece, b.turn.flip⟩
    let b :=
      if capturedPiece ≠ PieceTypes.None then
        SetPieceAt b move.toSquare ⟨capturedPiece, capturedPieceColor⟩
      else
        let b := RemovePieceAt b move.toSquare
        let diff := ((move.fromSquare : Int) - (move.toSquare : Int)).natAbs
        if piece = Pawn ∧ (diff = 7 ∨ diff = 9) then
          if b.turn = White then SetPieceAt b (move.toSquare + 8) ⟨Pawn, White⟩
          else SetPieceAt b (move.toSquare - 8) ⟨Pawn, Black⟩
        else b
    let b :=
      if piece = King then
        if move.fromSquare = E1 ∧ move.toSquare = G1 then
          SetPieceAt (RemovePieceAt b F1) H1 ⟨Rook, White⟩
        else if move.fromSquare = E1 ∧ move.toSquare = C1 then
          SetPieceAt (RemovePieceAt b D1) A1 ⟨Rook, White⟩
        else if move.fromSquare = E8 ∧ move.toSquare = G8 then
          SetPieceAt (RemovePieceAt b F8) H8 ⟨Rook, Black⟩
        else if move.fromSquare = E8 ∧ move.toSquare = C8 then
          SetPieceAt (RemovePieceAt b D8) A8 ⟨Rook, Black⟩
        else b
      else b
    (some move, { b with turn := b.turn.flip })

/-- `IsIntoCheck`: pushes the move, tests `WasIntoCheck`, pops.  In the
persistent embedding the pop is the discarding of the pushed board. -/
def IsIntoCheck (b : Bitboard) (move : Option Move) : Bool :=
  WasIntoCheck (Push b move)

/-- `GenerateLegalMoves`. -/
def GenerateLegalMoves (b : Bitboard)
    (castling pawns knights bishops rooks queens kings : Bool) : List Move :=
  (GeneratePseudoLegalMoves b castling pawns knights bishops rooks queens kings).filter
    (fun move => !IsIntoCheck b (some move))

/-- `IsLegal`. -/
def IsLegal (b : Bitboard) (move : Option Move) : Bool :=
  IsPseudoLegal b move && !IsIntoCheck b move

/-- `CanClaimThreefoldRepitition`: the current position occurred three
times, or some pseudo-legal move that is not into check reaches a third
occurrence.  The Go loop pushes and pops each candidate on the shared board;
here each candidate is examined on its own pushed copy. -/
def CanClaimThreefoldRepitition (b : Bitboard) : Bool :=
  if tGet b.transpositions (ZobristHash b) ≥ 3 then true
  else
    (GeneratePseudoLegalMoves b true true true true true true true).any (fun move =>
      let b2 := Push b (some move)
      !WasIntoCheck b2 && tGet b2.transpositions (ZobristHash b2) ≥ 3)

/-! ## Notation codec -/

/-- Modelled from the spec: the fixed square name table `SquareNames`
(`"a1"` … `"h8"`). -/
def SquareNames (i : Nat) : String :=
  ⟨[Char.ofNat (97 + i % 8), Char.ofNat (49 + i / 8)]⟩

/-- Modelled from the spec: `Squares180`, the FEN reading order (rank 8
first, files `a` to `h`). -/
def Squares180 : List Nat := (List.range 64).map (fun i => (7 - i / 8) * 8 + i % 8)

/-- Modelled from the spec: `PieceSymbols` (lower-case letters, empty for
`None`). -/
def PieceSymbols : PieceTypes → String
  | PieceTypes.None => ""
  | Pawn => "p"
  | Knight => "n"
  | Bishop => "b"
  | Rook => "r"
  | Queen => "q"
  | King => "k"

/-- `PieceSymbols` upper-cased (`strings.ToUpper` applied to the table). -/
def PieceSymbolsUpper : PieceTypes → String
  | PieceTypes.None => ""
  | Pawn => "P"
  | Knight => "N"
  | Bishop => "B"
  | Rook => "R"
  | Queen => "Q"
  | King => "K"

/-- `Piece.String()`: upper case for white pieces. -/
def pieceString (p : Piece) : String :=
  if p.color = White then PieceSymbolsUpper p.pieceType else PieceSymbols p.pieceType

/-- `PieceAt`. -/
def PieceAt (b : Bitboard) (square : Nat) : Option Piece :=
  let mask := BBSquares square
  let color := if b.occupiedCoB &&& mask > 0 then Black else White
  let pieceType := PieceTypeAt b square
  if pieceType ≠ PieceTypes.None then some ⟨pieceType, color⟩ else Option.none

/-- The position/turn/castling/en-passant part built by `Epd(nil)`. -/
def epdString (b : Bitboard) : String :=
  let step := fun (acc : String × Nat) (square : Nat) =>
    let (epd, empty) := acc
    let (epd, empty) :=
      match PieceAt b square with
      | Option.none => (epd, empty + 1)
      | some piece =>
        ((if empty > 0 then epd ++ toString empty else epd) ++ pieceString piece, 0)
    if BBSquares square &&& BBFileH > 0 then
      let epd := if empty > 0 then epd ++ toString empty else epd
      (if square ≠ H1 then epd ++ "/" else epd, 0)
    else (epd, empty)
  let position := (Squares180.foldl step ("", 0)).1
  let turnPart := if b.turn = White then "w" else "b"
  let castlingPart :=
    if b.castlingRights = 0 then "-"
    else
      (if b.castlingRights &&& CastlingWhiteKingSide > 0 then "K" else "") ++
      (if b.castlingRights &&& CastlingWhiteQueenSide > 0 then "Q" else "") ++
      (if b.castlingRights &&& CastlingBlackKingSide > 0 then "k" else "") ++
      (if b.castlingRights &&& CastlingBlackQueenSide > 0 then "q" else "")
  let epPart := if b.epSquare > 0 then SquareNames b.epSquare else "-"
  position ++ " " ++ turnPart ++ " " ++ castlingPart ++ " " ++ epPart

/-- `Fen()`: the EPD part plus the half-move clock and full-move number. -/
def Fen (b : Bitboard) : String :=
  epdString b ++ " " ++ toString b.halfMoveClock ++ " " ++ toString b.fullMoveNumber

/-! ## SetFen -/

/-- Splitting a character list at every separator position. -/
def splitChars (p : Char → Bool) : List Char → List (List Char)
  | [] => [[]]
  | c :: rest =>
    match splitChars p rest with
    | [] => if p c then [[], []] else [[c]]
    | r :: rs => if p c then [] :: r :: rs else (c :: r) :: rs

/-- Go `strings.Fields`: split around whitespace runs. -/
def fenParts (fen : String) : List String :=
  ((splitChars Char.isWhitespace fen.toList).map (fun l => String.mk l)).filter
    (fun s => s ≠ "")

/-- Go `strings.Split(s, "/")`. -/
def splitSlash (s : String) : List String :=
  (splitChars (fun c => c = '/') s.toList).map (fun l => String.mk l)

/-- Go `strings.Contains(s, c)` for a single character. -/
def containsChar (s : String) (c : Char) : Bool := s.toList.contains c

/-- The twelve valid piece letters of the FEN board field. -/
def pieceChars : List Char := ['p', 'n', 'b', 'r', 'q', 'k', 'P', 'N', 'B', 'R', 'Q', 'K']

/-- The per-row validation loop of `SetFen` (run-length/letter sum of eight,
no two consecutive digits, only valid characters). -/
def rowScan (fen : String) (cs : List Char) (fieldSum : Nat) (previousWasDigit : Bool) :
    Option String :=
  match cs with
  | [] =>
    if fieldSum ≠ 8 then
      some ("expected 8 columns per row in position part of fen: '" ++ fen ++ "'.")
    else Option.none
  | c :: rest =>
    if '1' ≤ c ∧ c ≤ '8' then
      if previousWasDigit then
        some ("two subsequent digits in position part of fen: '" ++ fen ++ "'.")
      else rowScan fen rest (fieldSum + (c.toNat - 48)) true
    else if c ∈ pieceChars then rowScan fen rest (fieldSum + 1) false
    else some ("invalid character in position part of fen: '" ++ fen ++ "'.")

/-- Validation of all rows of the board field, first error wins. -/
def checkRows (fen : String) (rows : List String) : Option String :=
  rows.foldl (fun e row => e <|> rowScan fen row.toList 0 false) Option.none

/-- Modelled from the spec: the castling-rights syntax accepted by
`FenCastlingRegex` (an ordered subset of `KQkq`, or `-`). -/
def fenCastlingOk (s : String) : Bool :=
  s ∈ ["-", "K", "Q", "k", "q", "KQ", "Kk", "Kq", "Qk", "Qq", "kq",
       "KQk", "KQq", "Kkq", "Qkq", "KQkq"]

/-- The `SquareNames` lookup loop of `SetFen` (first match, default 0). -/
def findSquareName (s : String) : Nat :=
  (((List.range 64).find? (fun i => SquareNames i = s)).getD 0)

/-- Go `strconv.Atoi`: an optional sign followed by a nonempty digit run. -/
def digitsVal : List Char → Option Nat
  | [] => Option.none
  | l =>
    if l.all Char.isDigit then
      some (l.foldl (fun acc c => acc * 10 + (c.toNat - 48)) 0)
    else Option.none

/-- Go `strconv.Atoi` on a full string. -/
def parseIntGo (s : String) : Option Int :=
  match s.toList with
  | '+' :: rest => (digitsVal rest).map Int.ofNat
  | '-' :: rest => (digitsVal rest).map (fun n => -(n : Int))
  | l => (digitsVal l).map Int.ofNat

/-- `PieceFromSymbol`, total on characters (callers only pass valid piece
letters). -/
def pieceTypeOfLower (c : Char) : PieceTypes :=
  if c = 'p' then Pawn
  else if c = 'n' then Knight
  else if c = 'b' then Bishop
  else if c = 'r' then Rook
  else if c = 'q' then Queen
  else if c = 'k' then King
  else PieceTypes.None

/-- `PieceFromSymbol`. -/
def PieceFromSymbol (c : Char) : Piece :=
  if c.isLower then ⟨pieceTypeOfLower c, Black⟩ else ⟨pieceTypeOfLower c.toLower, White⟩

/-- `Squares180[squareIndex]` as a function. -/
def squares180At (i : Nat) : Nat := (7 - i / 8) * 8 + i % 8

/-- The placement loop of `SetFen` over the board field. -/
def placePieces (b : Bitboard) : List Char → Nat → Bitboard
  | [], _ => b
  | c :: rest, squareIndex =>
    if '1' ≤ c ∧ c ≤ '8' then placePieces b rest (squareIndex + (c.toNat - 48))
    else if c ∈ pieceChars then
      placePieces (SetPieceAt b (squares180At squareIndex) (PieceFromSymbol c)) rest
        (squareIndex + 1)
    else placePieces b rest squareIndex

/-- The mutation phase of `SetFen`, entered only after all validation has
passed. -/
def applyFen (b : Bitboard) (p0 p1 p2 p3 : String) (hm fm : Int) : Bitboard :=
  let b := ClearB b
  let b := placePieces b p0.toList 0
  let b := { b with turn := if p1 = "w" then White else Black }
  let cr := CastlingNone
  let cr := if containsChar p2 'K' then cr ||| CastlingWhiteKingSide else cr
  let cr := if containsChar p2 'Q' then cr ||| CastlingWhiteQueenSide else cr
  let cr := if containsChar p2 'k' then cr ||| CastlingBlackKingSide else cr
  let cr := if containsChar p2 'q' then cr ||| CastlingBlackQueenSide else cr
  let b := { b with castlingRights := cr }
  let b := { b with epSquare := if p3 = "-" then 0 else findSquareName p3 }
  let b := { b with halfMoveClock := hm }
  let b := { b with fullMoveNumber := if fm > 0 then fm else 1 }
  { b with transpositions := [(ZobristHash b, 1)] }

/-- `SetFen`: parses a FEN and sets the position from it.  The first
component is the error (`none` on success), the second the resulting
receiver state. -/
def SetFen (b : Bitboard) (fen : String) : Option String × Bitboard :=
  match fenParts fen with
  | [p0, p1, p2, p3, p4, p5] =>
    if (splitSlash p0).length ≠ 8 then
      (some ("expected 8 rows in position part of fen: '" ++ fen ++ "'."), b)
    else
      match checkRows fen (splitSlash p0) with
      | some e => (some e, b)
      | Option.none =>
        if p1 ≠ "w" ∧ p1 ≠ "b" then
          (some ("expected 'w' or 'b' for turn part of fen: '" ++ fen ++ "'."), b)
        else if ¬ fenCastlingOk p2 then
          (some ("invalid castling part in fen: '" ++ fen ++ "'."), b)
        else if p3 ≠ "-" ∧ p1 = "w" ∧ rankIndex (findSquareName p3) ≠ 5 then
          (some ("expected en-passant square to be on sixth rank: '" ++ fen ++ "'."), b)
        else if p3 ≠ "-" ∧ p1 ≠ "w" ∧ rankIndex (findSquareName p3) ≠ 2 then
          (some ("expected en-passant square to be on third rank: '" ++ fen ++ "'."), b)
        else
          match parseIntGo p4 with
          | Option.none => (some ("halfmove clock can not be negative: '" ++ fen ++ "'."), b)
          | some hm =>
            if hm < 0 then (some ("halfmove clock can not be negative: '" ++ fen ++ "'."), b)
            else
              match parseIntGo p5 with
              | Option.none => (some ("fullmove number must be positive: '" ++ fen ++ "'."), b)
              | some fm =>
                if fm < 0 then (some ("fullmove number must be positive: '" ++ fen ++ "'."), b)
                else (Option.none, applyFen b p0 p1 p2 p3 hm fm)
  | _ => (some ("fen string should consist of 6 parts: '" ++ fen ++ "'."), b)

/-! ## MoveFromUci (move.go)

Go strings are byte sequences; the UCI parser is embedded over byte lists
(`len`, slicing and comparisons in `MoveFromUci` are all byte-level). -/

/-- The square name table as bytes. -/
def SquareNamesBytes (i : Nat) : List Nat := [97 + i % 8, 49 + i / 8]

/-- The `for i := range SquareNames` lookup of `MoveFromUci`: every matching
index overwrites the variable (names are distinct, so this is the unique
match), default 0. -/
def findSquareBytes (s : List Nat) : Nat :=
  (List.range 64).foldl (fun acc i => if SquareNamesBytes i = s then i else acc) 0

/-- The `PieceSymbols` scan of `MoveFromUci` over the fifth byte: first
matching symbol wins, no match leaves the zero value `None` (the empty
`None` symbol never matches a one-byte string). -/
def promoOfByte (c : Nat) : PieceTypes :=
  if c = 112 then Pawn
  else if c = 110 then Knight
  else if c = 98 then Bishop
  else if c = 114 then Rook
  else if c = 113 then Queen
  else if c = 107 then King
  else PieceTypes.None

/-- `MoveFromUci`: parses an UCI byte string, `none` for the null move
`"0000"` and for invalid lengths. -/
def MoveFromUci (uci : List Nat) : Option Move :=
  if uci = [48, 48, 48, 48] then Option.none
  else if uci.length = 4 then
    some ⟨findSquareBytes (uci.take 2), findSquareBytes (uci.drop 2), PieceTypes.None⟩
  else if uci.length = 5 then
    some ⟨findSquareBytes (uci.take 2), findSquareBytes ((uci.drop 2).take 2),
      promoOfByte (uci.getD 4 0)⟩
  else Option.none

/-! ## Scenario definitions used by the claim theorems -/

/-- Positions reachable from the standard initial position by a sequence of
moves from the code's own legal move list. -/
inductive Reachable : Bitboard → Prop where
  | init : Reachable resetBoard
  | step {b : Bitboard} {m : Move} (hb : Reachable b)
      (hm : m ∈ GenerateLegalMoves b true true true true true true true) :
      Reachable (Push b (some m))

/-- The board a list of moves leads to. -/
def playAll (b : Bitboard) (ms : List Move) : Bitboard :=
  ms.foldl (fun bb m => Push bb (some m)) b

/-- Every move of the list is taken from the code's legal move list of the
position it is played in. -/
def legalLine (b : Bitboard) : List Move → Bool
  | [] => true
  | m :: ms =>
    decide (m ∈ GenerateLegalMoves b true true true true true true true) &&
      legalLine (Push b (some m)) ms

/-- Every move of the list passes the code's own `IsLegal` test in the
position it is played in. -/
def isLegalLine (b : Bitboard) : List Move → Bool
  | [] => true
  | m :: ms => IsLegal b (some m) && isLegalLine (Push b (some m)) ms

/-- A quiet move (no promotion). -/
def mv (fromSquare toSquare : Nat) : Move := ⟨fromSquare, toSquare, PieceTypes.None⟩

/-- A 19-ply legal game from the initial position: 1. a4 b5 2. axb5 a6
3. h3 axb5 4. h4 Na6 5. h5 Nc5 6. h6 c6 7. Nf3 Qc7 8. Ne5 Bb7 9. Nd3 Rxa1
10. Nf4.  Black's 9…Rxa1 leaves the a8 corner empty while (through the
revocation slip) keeping black's queenside castling right, so 10…O-O-O is
offered as a legal move. -/
def gameLine : List Move :=
  [mv 8 24, mv 49 33, mv 24 33, mv 48 40, mv 15 23, mv 40 33, mv 23 31,
   mv 57 40, mv 31 39, mv 40 34, mv 39 47, mv 50 42, mv 6 21, mv 59 50,
   mv 21 36, mv 58 49, mv 36 19, mv 56 0, mv 19 29]

/-- The board after the first `k` plies of `gameLine`. -/
def gAt (k : Nat) : Bitboard := playAll resetBoard (gameLine.take k)

/-- The board after all 19 plies of `gameLine` (black to move). -/
def boardC1 : Bitboard := gAt 19

/-- Black queenside castling, `e8c8`. -/
def castleQMove : Move := mv E8 C8

/-- A sparse position: kings e1/e8, rooks a1/h1/a8/h8, white to move, full
castling rights — white `Rh1xh8` is legal here. -/
def boardC3 : Bitboard :=
  let b := ClearB resetBoard
  let b := SetPieceAt b E1 ⟨King, White⟩
  let b := SetPieceAt b E8 ⟨King, Black⟩
  let b := SetPieceAt b H1 ⟨Rook, White⟩
  let b := SetPieceAt b H8 ⟨Rook, Black⟩
  let b := SetPieceAt b A1 ⟨Rook, White⟩
  let b := SetPieceAt b A8 ⟨Rook, Black⟩
  { b with castlingRights := Castling }

/-- A position where white kingside castling passes `IsPseudoLegal` but is
not offered by the generator: kings e1/e8, white rook h1, black rook f8
attacking the transit square f1. -/
def boardC4 : Bitboard :=
  let b := ClearB resetBoard
  let b := SetPieceAt b E1 ⟨King, White⟩
  let b := SetPieceAt b E8 ⟨King, Black⟩
  let b := SetPieceAt b H1 ⟨Rook, White⟩
  let b := SetPieceAt b F8 ⟨Rook, Black⟩
  { b with castlingRights := CastlingWhiteKingSide }

/-- The knight out-and-back shuffle of the repetition scenario:
1. Nf3 Nf6 2. Ng1 Ng8 3. Nf3 Nf6 4. Ng1. -/
def knightLine : List Move :=
  [mv 6 21, mv 62 45, mv 21 6, mv 45 62, mv 6 21, mv 62 45, mv 21 6]

/-- The board after the first `k` plies of `knightLine`. -/
def kAt (k : Nat) : Bitboard := playAll resetBoard (knightLine.take k)

/-- The position after 1. e4 from the initial position (black to move). -/
def boardAfterE4 : Bitboard := Push resetBoard (some (mv 12 28))

/-- The castling home square of a color's king. -/
def kingHomeSq (c : Colors) : Nat := if c = White then E1 else E8

/-- The king's destination square for kingside castling. -/
def castleShortTo (c : Colors) : Nat := if c = White then G1 else G8

/-- The king's destination square for queenside castling. -/
def castleLongTo (c : Colors) : Nat := if c = White then C1 else C8

/-- The rights bit for kingside castling. -/
def castleShortRight (c : Colors) : Nat :=
  if c = White then CastlingWhiteKingSide else CastlingBlackKingSide

/-- The rights bit for queenside castling. -/
def castleLongRight (c : Colors) : Nat :=
  if c = White then CastlingWhiteQueenSide else CastlingBlackQueenSide

/-- The squares strictly between king and kingside rook. -/
def castleShortBetween (c : Colors) : Nat :=
  if c = White then BBSquares F1 ||| BBSquares G1 else BBSquares F8 ||| BBSquares G8

/-- The squares strictly between king and queenside rook. -/
def castleLongBetween (c : Colors) : Nat :=
  if c = White then BBSquares B1 ||| BBSquares C1 ||| BBSquares D1
  else BBSquares B8 ||| BBSquares C8 ||| BBSquares D8

/-- The generator's kingside castling condition for the side to move. -/
def castleShortOffered (b : Bitboard) : Bool :=
  if b.turn = White then castleWKOffered b else castleBKOffered b

/-- The generator's queenside castling condition for the side to move. -/
def castleLongOffered (b : Bitboard) : Bool :=
  if b.turn = White then castleWQOffered b else castleBQOffered b

/-! ## Helper lemmas on bit sets -/

theorem bbOfList_cons (p : Nat → Bool) (x : Nat) (xs : List Nat) :
    bbOfList p (x :: xs) = cond (p x) (2 ^ x) 0 ||| bbOfList p xs := rfl

theorem testBit_bbOfList (p : Nat → Bool) (l : List Nat) (t : Nat) :
    (bbOfList p l).testBit t = true ↔ t ∈ l ∧ p t = true := by
  induction l with
  | nil => simp [bbOfList]
  | cons x xs ih =>
    rw [bbOfList_cons, Nat.testBit_lor]
    cases hpx : p x with
    | true =>
      simp only [cond_true, Nat.testBit_two_pow, Bool.or_eq_true, decide_eq_true_eq, ih,
        List.mem_cons]
      constructor
      · rintro (rfl | ⟨h1, h2⟩)
        · exact ⟨Or.inl rfl, hpx⟩
        · exact ⟨Or.inr h1, h2⟩
      · rintro ⟨rfl | h1, h2⟩
        · exact Or.inl rfl
        · exact Or.inr ⟨h1, h2⟩
    | false =>
      simp only [cond_false, Nat.zero_testBit, Bool.false_or, ih, List.mem_cons]
      constructor
      · rintro ⟨h1, h2⟩
        exact ⟨Or.inr h1, h2⟩
      · rintro ⟨rfl | h1, h2⟩
        · rw [hpx] at h2
          exact absurd h2 Bool.false_ne_true
        · exact ⟨h1, h2⟩

theorem testBit_bbOfPred (p : Nat → Bool) (t : Nat) :
    (bbOfPred p).testBit t = true ↔ t < 64 ∧ p t = true := by
  rw [bbOfPred, testBit_bbOfList, List.mem_range]

theorem ne_zero_iff_exists_testBit (n : Nat) : n ≠ 0 ↔ ∃ i, n.testBit i = true := by
  constructor
  · intro h
    by_contra hc
    push_neg at hc
    exact h (Nat.eq_of_testBit_eq fun i => by
      rw [Nat.zero_testBit]
      exact Bool.not_eq_true _ ▸ (Bool.eq_false_iff.mpr (hc i)))
  · rintro ⟨i, hi⟩ h0
    rw [h0, Nat.zero_testBit] at hi
    exact Bool.false_ne_true hi

theorem land_ne_zero_iff (x y : Nat) :
    x &&& y ≠ 0 ↔ ∃ i, x.testBit i = true ∧ y.testBit i = true := by
  rw [ne_zero_iff_exists_testBit]
  simp [Nat.testBit_land]

theorem land_two_pow_ne_zero_iff (x k : Nat) : x &&& 2 ^ k ≠ 0 ↔ x.testBit k = true := by
  rw [land_ne_zero_iff]
  constructor
  · rintro ⟨i, hx, hp⟩
    rw [Nat.testBit_two_pow] at hp
    have hk : k = i := of_decide_eq_true hp
    subst hk
    exact hx
  · intro h
    exact ⟨k, h, by simp [Nat.testBit_two_pow]⟩

theorem lor_ne_zero_iff (x y : Nat) : x ||| y ≠ 0 ↔ x ≠ 0 ∨ y ≠ 0 := by
  constructor
  · intro h
    by_contra hc
    push_neg at hc
    rw [hc.1, hc.2] at h
    exact h rfl
  · rintro (h | h) h0
    · exact h (Nat.eq_of_testBit_eq fun i => by
        have := congrArg (Nat.testBit · i) h0
        simp only [Nat.testBit_lor, Nat.zero_testBit, Bool.or_eq_false_iff] at this
        simp [this.1])
    · exact h (Nat.eq_of_testBit_eq fun i => by
        have := congrArg (Nat.testBit · i) h0
        simp only [Nat.testBit_lor, Nat.zero_testBit, Bool.or_eq_false_iff] at this
        simp [this.2])

theorem land_lor_distrib_left (x y z : Nat) :
    (x ||| y) &&& z = (x &&& z) ||| (y &&& z) :=
  Nat.eq_of_testBit_eq fun i => by
    simp only [Nat.testBit_land, Nat.testBit_lor]
    cases x.testBit i <;> cases y.testBit i <;> cases z.testBit i <;> rfl

theorem land_middle_lor (m x y z : Nat) :
    m &&& (x ||| y) &&& z = (m &&& x &&& z) ||| (m &&& y &&& z) :=
  Nat.eq_of_testBit_eq fun i => by
    simp only [Nat.testBit_land, Nat.testBit_lor]
    cases m.testBit i <;> cases x.testBit i <;> cases y.testBit i <;> cases z.testBit i <;> rfl

/-! ## The attack tables match their geometric characterizations -/

theorem BBRank_BBFile_spec :
    BBRank1 = BBRanks 0 ∧ BBRank2 = BBRanks 1 ∧ BBRank4 = BBRanks 3 ∧
      BBRank5 = BBRanks 4 ∧ BBRank7 = BBRanks 6 ∧ BBRank8 = BBRanks 7 ∧
      BBFileA = BBFiles 0 ∧ BBFileH = BBFiles 7 ∧
      BBDarkSquares = bbOfPred (fun sq => (fileIndex sq + rankIndex sq) % 2 = 0) ∧
      BBLightSquares = bbOfPred (fun sq => (fileIndex sq + rankIndex sq) % 2 = 1) := by
  refine ⟨by decide, by decide, by decide, by decide, by decide, by decide, by decide,
    by decide, by decide, by decide⟩

theorem knightTable_spec :
    ((List.range 64).all (fun sq => BBKnightAttacks sq == bbOfPred (knightPred sq))) = true := by
  decide!

theorem kingTable_spec :
    ((List.range 64).all (fun sq => BBKingAttacks sq == bbOfPred (kingPred sq))) = true := by
  decide!

theorem pawnAttacksTable_spec :
    ((List.range 64).all (fun sq =>
      (BBPawnAttacks White sq == bbOfPred (pawnAttackPred White sq)) &&
        (BBPawnAttacks Black sq == bbOfPred (pawnAttackPred Black sq)))) = true := by
  decide!

theorem pawnF1Table_spec :
    ((List.range 64).all (fun sq =>
      (BBPawnF1 White sq == bbOfPred (pawnF1Pred White sq)) &&
        (BBPawnF1 Black sq == bbOfPred (pawnF1Pred Black sq)))) = true := by
  decide!

theorem pawnF2Table_spec :
    ((List.range 64).all (fun sq =>
      (BBPawnF2 White sq == bbOfPred (pawnF2Pred White sq)) &&
        (BBPawnF2 Black sq == bbOfPred (pawnF2Pred Black sq)))) = true := by
  decide!

theorem BBPawnAttacks_eq {c : Colors} {sq : Nat} (h : sq < 64) :
    BBPawnAttacks c sq = bbOfPred (pawnAttackPred c sq) := by
  have h2 := List.all_eq_true.mp pawnAttacksTable_spec sq (List.mem_range.mpr h)
  rw [Bool.and_eq_true] at h2
  cases c
  · exact eq_of_beq h2.1
  · exact eq_of_beq h2.2

theorem BBKingAttacks_eq {sq : Nat} (h : sq < 64) :
    BBKingAttacks sq = bbOfPred (kingPred sq) := by
  have h2 := List.all_eq_true.mp kingTable_spec sq (List.mem_range.mpr h)
  exact eq_of_beq h2

/-! ## Adjacency lemmas for the attack masks -/

theorem ne_of_fdist_one {sq t : Nat} (h : fdist sq t = 1) : sq ≠ t := by
  intro he
  subst he
  unfold fdist at h
  omega

theorem ne_of_rdist_one {sq t : Nat} (h : rdist sq t = 1) : sq ≠ t := by
  intro he
  subst he
  unfold rdist at h
  omega

theorem pawn_diag_adj {c : Colors} {sq t : Nat} (h : pawnAttackPred c sq t = true) :
    fdist sq t = 1 ∧ rdist sq t = 1 := by
  cases c <;>
    · simp only [pawnAttackPred, Bool.and_eq_true, decide_eq_true_eq] at h
      refine ⟨h.1, ?_⟩
      have h2 := h.2
      unfold rdist
      omega

theorem king_adj {sq t : Nat} (h : kingPred sq t = true) :
    (fdist sq t = 1 ∧ rdist sq t = 1) ∨ (fdist sq t = 1 ∧ rdist sq t = 0) ∨
      (fdist sq t = 0 ∧ rdist sq t = 1) := by
  simp only [kingPred, Bool.and_eq_true, Bool.not_eq_eq_eq_not, Bool.not_true,
    decide_eq_true_eq, Bool.and_eq_false_imp] at h
  rcases h with ⟨⟨h1, h2⟩, h3⟩
  by_cases hf : fdist sq t = 0
  · have h4 := h3 hf
    rw [decide_eq_false_iff_not] at h4
    right; right
    exact ⟨hf, by omega⟩
  · by_cases hr : rdist sq t = 0
    · right; left
      exact ⟨by omega, hr⟩
    · left
      exact ⟨by omega, by omega⟩

theorem betweenFree_of_adj {occ sq t : Nat} (h : max (fdist sq t) (rdist sq t) = 1) :
    betweenFree occ sq t = true := by
  simp [betweenFree, h]

theorem walkRay_testBit_head (occ j : Nat) (r : List Nat) :
    (walkRay occ (j :: r)).testBit j = true := by
  simp only [walkRay]
  rw [Nat.testBit_lor]
  simp [BBSquares, Nat.testBit_two_pow_self]

theorem walkRays_testBit_of_head {occ t : Nat} {rs : List (List Nat)} {r : List Nat}
    (hmem : r ∈ rs) (hhead : r.head? = some t) :
    (walkRays occ rs).testBit t = true := by
  induction rs with
  | nil => cases hmem
  | cons r0 rest ih =>
    simp only [walkRays, Nat.testBit_lor]
    rcases List.mem_cons.mp hmem with h | h
    · subst h
      cases r with
      | nil => simp at hhead
      | cons j rr =>
        have hj : j = t := by simpa using hhead
        subst hj
        rw [walkRay_testBit_head]
        rfl
    · rw [ih h]
      exact Bool.or_true _

/-- Every diagonally adjacent square heads one of the diagonal rays. -/
theorem bishopRays_adj_heads :
    ((List.range 64).all (fun sq => (List.range 64).all (fun t =>
      !(fdist sq t == 1 && rdist sq t == 1) ||
        (bishopRaysTable.getD sq []).any (fun r => r.head? == some t)))) = true := by
  decide!

theorem bishop_testBit_of_diag_adj {occ sq t : Nat} (hsq : sq < 64) (ht : t < 64)
    (hf : fdist sq t = 1) (hr : rdist sq t = 1) :
    (bishopAttacksOn occ sq).testBit t = true := by
  have hg := bishopRays_adj_heads
  rw [List.all_eq_true] at hg
  have h2 := hg sq (List.mem_range.mpr hsq)
  rw [List.all_eq_true] at h2
  have h3 := h2 t (List.mem_range.mpr ht)
  have h4 : ((bishopRaysTable.getD sq []).any (fun r => r.head? == some t)) = true := by
    simpa [hf, hr] using h3
  rcases List.any_eq_true.mp h4 with ⟨r, hrmem, hrhead⟩
  simp only [bishopAttacksOn]
  exact walkRays_testBit_of_head hrmem (eq_of_beq hrhead)

theorem rank_eq_of_rdist_zero {sq t : Nat} (h : rdist sq t = 0) :
    rankIndex sq = rankIndex t := by
  unfold rdist at h
  unfold rankIndex
  omega

theorem file_eq_of_fdist_zero {sq t : Nat} (h : fdist sq t = 0) :
    fileIndex sq = fileIndex t := by
  unfold fdist at h
  unfold fileIndex
  omega

/-- Every straight-adjacent square heads one of the straight rays. -/
theorem rookRays_adj_heads :
    ((List.range 64).all (fun sq => (List.range 64).all (fun t =>
      !((fdist sq t == 1 && rdist sq t == 0) || (fdist sq t == 0 && rdist sq t == 1)) ||
        (rookRaysTable.getD sq []).any (fun r => r.head? == some t)))) = true := by
  decide!

theorem rook_testBit_of_straight_adj {occ sq t : Nat} (hsq : sq < 64) (ht : t < 64)
    (h : (fdist sq t = 1 ∧ rdist sq t = 0) ∨ (fdist sq t = 0 ∧ rdist sq t = 1)) :
    (rookAttacksOn occ sq).testBit t = true := by
  have hg := rookRays_adj_heads
  rw [List.all_eq_true] at hg
  have h2 := hg sq (List.mem_range.mpr hsq)
  rw [List.all_eq_true] at h2
  have h3 := h2 t (List.mem_range.mpr ht)
  have h4 : ((rookRaysTable.getD sq []).any (fun r => r.head? == some t)) = true := by
    rcases h with ⟨hf, hr⟩ | ⟨hf, hr⟩ <;> simpa [hf, hr] using h3
  rcases List.any_eq_true.mp h4 with ⟨r, hrmem, hrhead⟩
  simp only [rookAttacksOn]
  exact walkRays_testBit_of_head hrmem (eq_of_beq hrhead)

/-! ## Characterizations of IsAttackedBy and AttackerMask -/

theorem isAttackedBy_iff_branches (b : Bitboard) (c : Colors) (square : Nat) :
    IsAttackedBy b c square = true ↔
      BBPawnAttacks c.flip square &&& (b.pawns ||| b.bishops) &&& occCo b c ≠ 0 ∨
      KnightAttacksFrom b square &&& b.knights &&& occCo b c ≠ 0 ∨
      BishopAttacksFrom b square &&& (b.bishops ||| b.queens) &&& occCo b c ≠ 0 ∨
      RookAttacksFrom b square &&& (b.rooks ||| b.queens) &&& occCo b c ≠ 0 ∨
      KingAttacksFrom b square &&& (b.kings ||| b.queens) &&& occCo b c ≠ 0 := by
  unfold IsAttackedBy
  split_ifs with h1 h2 h3 h4 h5
  · simp only [true_iff]
    exact Or.inl (Nat.pos_iff_ne_zero.mp h1)
  · simp only [true_iff]
    exact Or.inr (Or.inl (Nat.pos_iff_ne_zero.mp h2))
  · simp only [true_iff]
    exact Or.inr (Or.inr (Or.inl (Nat.pos_iff_ne_zero.mp h3)))
  · simp only [true_iff]
    exact Or.inr (Or.inr (Or.inr (Or.inl (Nat.pos_iff_ne_zero.mp h4))))
  · simp only [true_iff]
    exact Or.inr (Or.inr (Or.inr (Or.inr (Nat.pos_iff_ne_zero.mp h5))))
  · simp only [Bool.false_eq_true, false_iff]
    push_neg
    refine ⟨?_, ?_, ?_, ?_, ?_⟩ <;> omega

theorem attackerMask_ne_zero_iff (b : Bitboard) (c : Colors) (square : Nat) :
    AttackerMask b c square ≠ 0 ↔
      BBPawnAttacks c.flip square &&& b.pawns &&& occCo b c ≠ 0 ∨
      KnightAttacksFrom b square &&& b.knights &&& occCo b c ≠ 0 ∨
      BishopAttacksFrom b square &&& (b.bishops ||| b.queens) &&& occCo b c ≠ 0 ∨
      RookAttacksFrom b square &&& (b.rooks ||| b.queens) &&& occCo b c ≠ 0 ∨
      KingAttacksFrom b square &&& b.kings &&& occCo b c ≠ 0 := by
  simp only [AttackerMask]
  rw [land_lor_distrib_left, land_lor_distrib_left, land_lor_distrib_left,
    land_lor_distrib_left, lor_ne_zero_iff, lor_ne_zero_iff, lor_ne_zero_iff, lor_ne_zero_iff]
  tauto

theorem land3_ne_zero_iff (x y z : Nat) :
    x &&& y &&& z ≠ 0 ↔
      ∃ i, x.testBit i = true ∧ y.testBit i = true ∧ z.testBit i = true := by
  rw [land_ne_zero_iff]
  constructor
  · rintro ⟨i, hxy, hz⟩
    rw [Nat.testBit_land, Bool.and_eq_true] at hxy
    exact ⟨i, hxy.1, hxy.2, hz⟩
  · rintro ⟨i, hx, hy, hz⟩
    exact ⟨i, by rw [Nat.testBit_land, hx, hy]; rfl, hz⟩

/-- A bishop standing on a pawn-attack square of `square` is diagonally
adjacent, hence also a slider attacker of `square` for any occupancy. -/
theorem pawn_bishop_bridge {b : Bitboard} {c : Colors} {square : Nat} (hsq : square < 64)
    (h : BBPawnAttacks c.flip square &&& b.bishops &&& occCo b c ≠ 0) :
    BishopAttacksFrom b square &&& (b.bishops ||| b.queens) &&& occCo b c ≠ 0 := by
  rcases (land3_ne_zero_iff _ _ _).mp h with ⟨i, hp, hb, ho⟩
  rw [BBPawnAttacks_eq hsq] at hp
  obtain ⟨hi64, hpred⟩ := (testBit_bbOfPred _ _).mp hp
  obtain ⟨hf, hr⟩ := pawn_diag_adj hpred
  refine (land3_ne_zero_iff _ _ _).mpr ⟨i, ?_, ?_, ho⟩
  · rw [BishopAttacksFrom]
    exact bishop_testBit_of_diag_adj hsq hi64 hf hr
  · rw [Nat.testBit_lor, hb]
    rfl

/-- A queen standing on a king-attack square of `square` is adjacent, hence
also a diagonal or straight slider attacker of `square` for any occupancy. -/
theorem king_queen_bridge {b : Bitboard} {c : Colors} {square : Nat} (hsq : square < 64)
    (h : KingAttacksFrom b square &&& b.queens &&& occCo b c ≠ 0) :
    BishopAttacksFrom b square &&& (b.bishops ||| b.queens) &&& occCo b c ≠ 0 ∨
      RookAttacksFrom b square &&& (b.rooks ||| b.queens) &&& occCo b c ≠ 0 := by
  rcases (land3_ne_zero_iff _ _ _).mp h with ⟨i, hk, hq, ho⟩
  rw [KingAttacksFrom, BBKingAttacks_eq hsq] at hk
  obtain ⟨hi64, hpred⟩ := (testBit_bbOfPred _ _).mp hk
  have hqor : (b.rooks ||| b.queens).testBit i = true := by
    rw [Nat.testBit_lor, hq]
    exact Bool.or_true _
  have hqorb : (b.bishops ||| b.queens).testBit i = true := by
    rw [Nat.testBit_lor, hq]
    exact Bool.or_true _
  rcases king_adj hpred with ⟨hf, hr⟩ | ⟨hf, hr⟩ | ⟨hf, hr⟩
  · refine Or.inl ((land3_ne_zero_iff _ _ _).mpr ⟨i, ?_, hqorb, ho⟩)
    rw [BishopAttacksFrom]
    exact bishop_testBit_of_diag_adj hsq hi64 hf hr
  · refine Or.inr ((land3_ne_zero_iff _ _ _).mpr ⟨i, ?_, hqor, ho⟩)
    rw [RookAttacksFrom]
    exact rook_testBit_of_straight_adj hsq hi64 (Or.inl ⟨hf, hr⟩)
  · refine Or.inr ((land3_ne_zero_iff _ _ _).mpr ⟨i, ?_, hqor, ho⟩)
    rw [RookAttacksFrom]
    exact rook_testBit_of_straight_adj hsq hi64 (Or.inr ⟨hf, hr⟩)

/-- C8: for every position state, every color and every square 0–63,
`IsAttackedBy(color, square)` returns true if and only if
`AttackerMask(color, square)` is nonzero — the extra pieces `IsAttackedBy`
tests against the pawn mask (bishops) and the king mask (queens) are
diagonally resp. orthogonally adjacent, so they are already slider
attackers, and the answer coincides with the matching-kind attacker
definition of `AttackerMask`. -/
theorem isAttackedBy_iff_attackerMask_ne_zero (b : Bitboard) (c : Colors) (sq : Fin 64) :
    IsAttackedBy b c sq.val = true ↔ AttackerMask b c sq.val ≠ 0 := by
  rw [isAttackedBy_iff_branches, attackerMask_ne_zero_iff]
  constructor
  · rintro (h1 | h2 | h3 | h4 | h5)
    · rw [land_middle_lor, lor_ne_zero_iff] at h1
      rcases h1 with hp | hb
      · exact Or.inl hp
      · exact Or.inr (Or.inr (Or.inl (pawn_bishop_bridge sq.isLt hb)))
    · exact Or.inr (Or.inl h2)
    · exact Or.inr (Or.inr (Or.inl h3))
    · exact Or.inr (Or.inr (Or.inr (Or.inl h4)))
    · rw [land_middle_lor, lor_ne_zero_iff] at h5
      rcases h5 with hk | hq
      · exact Or.inr (Or.inr (Or.inr (Or.inr hk)))
      · rcases king_queen_bridge sq.isLt hq with hb | hr
        · exact Or.inr (Or.inr (Or.inl hb))
        · exact Or.inr (Or.inr (Or.inr (Or.inl hr)))
  · rintro (h1 | h2 | h3 | h4 | h5)
    · refine Or.inl ?_
      rw [land_middle_lor, lor_ne_zero_iff]
      exact Or.inl h1
    · exact Or.inr (Or.inl h2)
    · exact Or.inr (Or.inr (Or.inl h3))
    · exact Or.inr (Or.inr (Or.inr (Or.inl h4)))
    · refine Or.inr (Or.inr (Or.inr (Or.inr ?_)))
      rw [land_middle_lor, lor_ne_zero_iff]
      exact Or.inl h5

/-- A list of moves passing `legalLine` step-by-step leads from a reachable
position to a reachable position. -/
theorem reachable_playAll {b : Bitboard} (ms : List Move) (hb : Reachable b)
    (hl : legalLine b ms = true) : Reachable (playAll b ms) := by
  induction ms generalizing b with
  | nil => exact hb
  | cons m rest ih =>
    simp only [legalLine, Bool.and_eq_true, decide_eq_true_eq] at hl
    have hstep : Reachable (Push b (some m)) := Reachable.step hb hl.1
    have : playAll b (m :: rest) = playAll (Push b (some m)) rest := rfl
    rw [this]
    exact ih hstep hl.2

/-! ## The castling branch of IsPseudoLegal (toward C4) -/

/-- The castle branch of `IsPseudoLegal` for white kingside: acceptance
is exactly the rights bit plus empty f1/g1. -/
theorem white_short_char (b : Bitboard)
    (ho : b.occupied = b.occupiedCoW ||| b.occupiedCoB)
    (hturn : b.turn = White)
    (hk : PieceTypeAt b E1 = King)
    (hkin : occCo b White &&& BBSquares E1 > 0) :
    IsPseudoLegal b (some ⟨E1, G1, PieceTypes.None⟩) =
      (decide (b.castlingRights &&& CastlingWhiteKingSide > 0) &&
        decide ((BBSquares F1 ||| BBSquares G1) &&& b.occupied = 0)) := by
  have hfrom : ¬(occCo b White &&& BBSquares E1 = 0) := by omega
  by_cases hg6 : occCo b White &&& BBSquares G1 > 0
  · have h6 : (occCo b White).testBit 6 = true := by
      refine (land_two_pow_ne_zero_iff (occCo b White) 6).mp ?_
      simpa [BBSquares, G1] using Nat.pos_iff_ne_zero.mp hg6
    have ho6 : b.occupied.testBit 6 = true := by
      rw [ho, Nat.testBit_lor]
      have hcw : occCo b White = b.occupiedCoW := rfl
      rw [hcw] at h6
      rw [h6]
      rfl
    have hbet : (BBSquares F1 ||| BBSquares G1) &&& b.occupied ≠ 0 := by
      refine (land_ne_zero_iff _ _).mpr ⟨6, by decide, ho6⟩
    simp only [IsPseudoLegal, hk, hturn]
    rw [if_neg (by simp), if_neg hfrom, if_pos hg6]
    rw [decide_eq_false hbet, Bool.and_false]
  · by_cases hcond : b.castlingRights &&& CastlingWhiteKingSide > 0 ∧
        (BBSquares F1 ||| BBSquares G1) &&& b.occupied = 0
    · simp only [IsPseudoLegal, hk, hturn]
      rw [if_neg (by simp), if_neg hfrom, if_neg hg6, if_neg (by simp), if_neg (by simp),
        if_neg (by simp), if_pos (by simp), if_pos ⟨trivial, trivial, trivial, hcond.1, hcond.2⟩]
      simp [hcond.1, hcond.2]
    · simp only [IsPseudoLegal, hk, hturn]
      rw [if_neg (by simp), if_neg hfrom, if_neg hg6, if_neg (by simp), if_neg (by simp),
        if_neg (by simp), if_pos (by simp),
        if_neg (by intro hfull; exact hcond ⟨hfull.2.2.2.1, hfull.2.2.2.2⟩),
        if_neg (by simp [G1, C1]), if_neg (by simp), if_neg (by simp)]
      have hatt0 : BBKingAttacks E1 &&& BBSquares G1 = 0 := by decide
      have hatt : KingAttacksFrom b E1 &&& BBSquares G1 = 0 := hatt0
      rw [decide_eq_false (by omega)]
      rcases Decidable.not_and_iff_or_not.mp hcond with hr | he
      · rw [decide_eq_false hr, Bool.false_and]
      · rw [decide_eq_false he, Bool.and_false]

/-- The castle branch of `IsPseudoLegal` for white queenside. -/
theorem white_long_char (b : Bitboard)
    (ho : b.occupied = b.occupiedCoW ||| b.occupiedCoB)
    (hturn : b.turn = White)
    (hk : PieceTypeAt b E1 = King)
    (hkin : occCo b White &&& BBSquares E1 > 0) :
    IsPseudoLegal b (some ⟨E1, C1, PieceTypes.None⟩) =
      (decide (b.castlingRights &&& CastlingWhiteQueenSide > 0) &&
        decide ((BBSquares B1 ||| BBSquares C1 ||| BBSquares D1) &&& b.occupied = 0)) := by
  have hfrom : ¬(occCo b White &&& BBSquares E1 = 0) := by omega
  by_cases hg2 : occCo b White &&& BBSquares C1 > 0
  · have h2 : (occCo b White).testBit 2 = true := by
      refine (land_two_pow_ne_zero_iff (occCo b White) 2).mp ?_
      simpa [BBSquares, C1] using Nat.pos_iff_ne_zero.mp hg2
    have ho2 : b.occupied.testBit 2 = true := by
      rw [ho, Nat.testBit_lor]
      have hcw : occCo b White = b.occupiedCoW := rfl
      rw [hcw] at h2
      rw [h2]
      rfl
    have hbet : (BBSquares B1 ||| BBSquares C1 ||| BBSquares D1) &&& b.occupied ≠ 0 := by
      refine (land_ne_zero_iff _ _).mpr ⟨2, by decide, ho2⟩
    simp only [IsPseudoLegal, hk, hturn]
    rw [if_neg (by simp), if_neg hfrom, if_pos hg2]
    rw [decide_eq_false hbet, Bool.and_false]
  · by_cases hcond : b.castlingRights &&& CastlingWhiteQueenSide > 0 ∧
        (BBSquares B1 ||| BBSquares C1 ||| BBSquares D1) &&& b.occupied = 0
    · simp only [IsPseudoLegal, hk, hturn]
      rw [if_neg (by simp), if_neg hfrom, if_neg hg2, if_neg (by simp), if_neg (by simp),
        if_neg (by simp), if_pos (by simp), if_neg (by simp [C1, G1]),
        if_pos ⟨trivial, trivial, trivial, hcond.1, hcond.2⟩]
      simp [hcond.1, hcond.2]
    · simp only [IsPseudoLegal, hk, hturn]
      rw [if_neg (by simp), if_neg hfrom, if_neg hg2, if_neg (by simp), if_neg (by simp),
        if_neg (by simp), if_pos (by simp), if_neg (by simp [C1, G1]),
        if_neg (by intro hfull; exact hcond ⟨hfull.2.2.2.1, hfull.2.2.2.2⟩),
        if_neg (by simp), if_neg (by simp)]
      have hatt0 : BBKingAttacks E1 &&& BBSquares C1 = 0 := by decide
      have hatt : KingAttacksFrom b E1 &&& BBSquares C1 = 0 := hatt0
      rw [decide_eq_false (by omega)]
      rcases Decidable.not_and_iff_or_not.mp hcond with hr | he
      · rw [decide_eq_false hr, Bool.false_and]
      · rw [decide_eq_false he, Bool.and_false]

/-- The castle branch of `IsPseudoLegal` for black kingside. -/
theorem black_short_char (b : Bitboard)
    (ho : b.occupied = b.occupiedCoW ||| b.occupiedCoB)
    (hturn : b.turn = Black)
    (hk : PieceTypeAt b E8 = King)
    (hkin : occCo b Black &&& BBSquares E8 > 0) :
    IsPseudoLegal b (some ⟨E8, G8, PieceTypes.None⟩) =
      (decide (b.castlingRights &&& CastlingBlackKingSide > 0) &&
        decide ((BBSquares F8 ||| BBSquares G8) &&& b.occupied = 0)) := by
  have hfrom : ¬(occCo b Black &&& BBSquares E8 = 0) := by omega
  by_cases hg62 : occCo b Black &&& BBSquares G8 > 0
  · have h62 : (occCo b Black).testBit 62 = true := by
      refine (land_two_pow_ne_zero_iff (occCo b Black) 62).mp ?_
      simpa [BBSquares, G8] using Nat.pos_iff_ne_zero.mp hg62
    have ho62 : b.occupied.testBit 62 = true := by
      rw [ho, Nat.testBit_lor]
      have hcb : occCo b Black = b.occupiedCoB := rfl
      rw [hcb] at h62
      rw [h62]
      exact Bool.or_true _
    have hbet : (BBSquares F8 ||| BBSquares G8) &&& b.occupied ≠ 0 := by
      refine (land_ne_zero_iff _ _).mpr ⟨62, by decide, ho62⟩
    simp only [IsPseudoLegal, hk, hturn]
    rw [if_neg (by simp), if_neg hfrom, if_pos hg62]
    rw [decide_eq_false hbet, Bool.and_false]
  · by_cases hcond : b.castlingRights &&& CastlingBlackKingSide > 0 ∧
        (BBSquares F8 ||| BBSquares G8) &&& b.occupied = 0
    · simp only [IsPseudoLegal, hk, hturn]
      rw [if_neg (by simp), if_neg hfrom, if_neg hg62, if_neg (by simp), if_neg (by simp),
        if_neg (by simp), if_pos (by simp), if_neg (by simp), if_neg (by simp),
        if_pos ⟨trivial, trivial, trivial, hcond.1, hcond.2⟩]
      simp [hcond.1, hcond.2]
    · simp only [IsPseudoLegal, hk, hturn]
      rw [if_neg (by simp), if_neg hfrom, if_neg hg62, if_neg (by simp), if_neg (by simp),
        if_neg (by simp), if_pos (by simp), if_neg (by simp), if_neg (by simp),
        if_neg (by intro hfull; exact hcond ⟨hfull.2.2.2.1, hfull.2.2.2.2⟩),
        if_neg (by simp [G8, C8])]
      have hatt0 : BBKingAttacks E8 &&& BBSquares G8 = 0 := by decide
      have hatt : KingAttacksFrom b E8 &&& BBSquares G8 = 0 := hatt0
      rw [decide_eq_false (by omega)]
      rcases Decidable.not_and_iff_or_not.mp hcond with hr | he
      · rw [decide_eq_false hr, Bool.false_and]
      · rw [decide_eq_false he, Bool.and_false]

/-- The castle branch of `IsPseudoLegal` for black queenside. -/
theorem black_long_char (b : Bitboard)
    (ho : b.occupied = b.occupiedCoW ||| b.occupiedCoB)
    (hturn : b.turn = Black)
    (hk : PieceTypeAt b E8 = King)
    (hkin : occCo b Black &&& BBSquares E8 > 0) :
    IsPseudoLegal b (some ⟨E8, C8, PieceTypes.None⟩) =
      (decide (b.castlingRights &&& CastlingBlackQueenSide > 0) &&
        decide ((BBSquares B8 ||| BBSquares C8 ||| BBSquares D8) &&& b.occupied = 0)) := by
  have hfrom : ¬(occCo b Black &&& BBSquares E8 = 0) := by omega
  by_cases hg58 : occCo b Black &&& BBSquares C8 > 0
  · have h58 : (occCo b Black).testBit 58 = true := by
      refine (land_two_pow_ne_zero_iff (occCo b Black) 58).mp ?_
      simpa [BBSquares, C8] using Nat.pos_iff_ne_zero.mp hg58
    have ho58 : b.occupied.testBit 58 = true := by
      rw [ho, Nat.testBit_lor]
      have hcb : occCo b Black = b.occupiedCoB := rfl
      rw [hcb] at h58
      rw [h58]
      exact Bool.or_true _
    have hbet : (BBSquares B8 ||| BBSquares C8 ||| BBSquares D8) &&& b.occupied ≠ 0 := by
      refine (land_ne_zero_iff _ _).mpr ⟨58, by decide, ho58⟩
    simp only [IsPseudoLegal, hk, hturn]
    rw [if_neg (by simp), if_neg hfrom, if_pos hg58]
    rw [decide_eq_false hbet, Bool.and_false]
  · by_cases hcond : b.castlingRights &&& CastlingBlackQueenSide > 0 ∧
        (BBSquares B8 ||| BBSquares C8 ||| BBSquares D8) &&& b.occupied = 0
    · simp only [IsPseudoLegal, hk, hturn]
      rw [if_neg (by simp), if_neg hfrom, if_neg hg58, if_neg (by simp), if_neg (by simp),
        if_neg (by simp), if_pos (by simp), if_neg (by simp), if_neg (by simp),
        if_neg (by simp [C8, G8]),
        if_pos ⟨trivial, trivial, trivial, hcond.1, hcond.2⟩]
      simp [hcond.1, hcond.2]
    · simp only [IsPseudoLegal, hk, hturn]
      rw [if_neg (by simp), if_neg hfrom, if_neg hg58, if_neg (by simp), if_neg (by simp),
        if_neg (by simp), if_pos (by simp), if_neg (by simp), if_neg (by simp),
        if_neg (by simp [C8, G8]),
        if_neg (by intro hfull; exact hcond ⟨hfull.2.2.2.1, hfull.2.2.2.2⟩)]
      have hatt0 : BBKingAttacks E8 &&& BBSquares C8 = 0 := by decide
      have hatt : KingAttacksFrom b E8 &&& BBSquares C8 = 0 := hatt0
      rw [decide_eq_false (by omega)]
      rcases Decidable.not_and_iff_or_not.mp hcond with hr | he
      · rw [decide_eq_false hr, Bool.false_and]
      · rw [decide_eq_false he, Bool.and_false]

/-- An offered white kingside castle heads the generated move list. -/
theorem white_short_mem (b : Bitboard) (hturn : b.turn = White)
    (hoff : castleWKOffered b = true) :
    (⟨E1, G1, PieceTypes.None⟩ : Move) ∈
      GeneratePseudoLegalMoves b true true true true true true true := by
  simp [GeneratePseudoLegalMoves, hturn, hoff]

/-- An offered white queenside castle is in the generated move list. -/
theorem white_long_mem (b : Bitboard) (hturn : b.turn = White)
    (hoff : castleWQOffered b = true) :
    (⟨E1, C1, PieceTypes.None⟩ : Move) ∈
      GeneratePseudoLegalMoves b true true true true true true true := by
  simp [GeneratePseudoLegalMoves, hturn, hoff]

/-- An offered black kingside castle is in the generated move list. -/
theorem black_short_mem (b : Bitboard) (hturn : b.turn = Black)
    (hoff : castleBKOffered b = true) :
    (⟨E8, G8, PieceTypes.None⟩ : Move) ∈
      GeneratePseudoLegalMoves b true true true true true true true := by
  simp [GeneratePseudoLegalMoves, hturn, hoff]

/-- An offered black queenside castle is in the generated move list. -/
theorem black_long_mem (b : Bitboard) (hturn : b.turn = Black)
    (hoff : castleBQOffered b = true) :
    (⟨E8, C8, PieceTypes.None⟩ : Move) ∈
      GeneratePseudoLegalMoves b true true true true true true true := by
  simp [GeneratePseudoLegalMoves, hturn, hoff]


/-! ## Claim theorems -/

/-- C1: the claim says that for every position reachable by legal moves and
every legal move there, `Push` followed by the matching `Pop` restores the
FEN string, the full hash and the transposition counts.  Counterexample:
after the 19 plies of `gameLine` (ending 9…Rxa1 10. Nf4) the position is
reachable, black's 10…O-O-O is in the code's legal move list — the
`else if` revocation chain in `Push` cleared only white's queenside right
on 9…Rxa1 and kept black's — and pushing then popping it leaves a
conjured black rook on a8: neither the FEN string nor the full Zobrist
hash returns to its pre-push value. -/
theorem push_pop_fails_to_restore_after_castle_without_rook :
    Reachable boardC1 ∧
    castleQMove ∈ GenerateLegalMoves boardC1 true true true true true true true ∧
    Fen ((Pop (Push boardC1 (some castleQMove))).2) ≠ Fen boardC1 ∧
    ZobristHash ((Pop (Push boardC1 (some castleQMove))).2) ≠ ZobristHash boardC1 := by
  refine ⟨?_, ?_⟩
  · have h := reachable_playAll (b := resetBoard) gameLine Reachable.init (by decide!)
    have he : playAll resetBoard gameLine = boardC1 := rfl
    rw [he] at h
    exact h
  · decide!


/-- C4 (amended): for every position state whose occupancy is the union of
the two color occupancies and whose side to move has its king on its home
square, `IsPseudoLegal` accepts the short or long castling move exactly
when the corresponding rights bit is set and all squares strictly between
king and rook are empty — the attack conditions of the generator are NOT
re-checked by `IsPseudoLegal` — and conversely every castling move the
generator offers (which passes the attack conditions too) is in the
generated pseudo-legal move list.  The claim's direction "every castling
move accepted by IsPseudoLegal also appears in the generated list" is
false (see the counterexample); the true inclusion is the generator's
offers into `IsPseudoLegal` acceptance. -/
theorem isPseudoLegal_castling_characterization (b : Bitboard)
    (ho : b.occupied = b.occupiedCoW ||| b.occupiedCoB)
    (hk : PieceTypeAt b (kingHomeSq b.turn) = King)
    (hkin : occCo b b.turn &&& BBSquares (kingHomeSq b.turn) > 0) :
    (IsPseudoLegal b (some ⟨kingHomeSq b.turn, castleShortTo b.turn, PieceTypes.None⟩) =
      (decide (b.castlingRights &&& castleShortRight b.turn > 0) &&
        decide (castleShortBetween b.turn &&& b.occupied = 0))) ∧
    (IsPseudoLegal b (some ⟨kingHomeSq b.turn, castleLongTo b.turn, PieceTypes.None⟩) =
      (decide (b.castlingRights &&& castleLongRight b.turn > 0) &&
        decide (castleLongBetween b.turn &&& b.occupied = 0))) ∧
    (castleShortOffered b = true →
      (⟨kingHomeSq b.turn, castleShortTo b.turn, PieceTypes.None⟩ : Move) ∈
        GeneratePseudoLegalMoves b true true true true true true true) ∧
    (castleLongOffered b = true →
      (⟨kingHomeSq b.turn, castleLongTo b.turn, PieceTypes.None⟩ : Move) ∈
        GeneratePseudoLegalMoves b true true true true true true true) := by
  cases hturn : b.turn with
  | White =>
    rw [hturn] at hk hkin
    refine ⟨white_short_char b ho hturn hk hkin, white_long_char b ho hturn hk hkin, ?_, ?_⟩
    · intro hoff
      unfold castleShortOffered at hoff
      rw [hturn, if_pos rfl] at hoff
      exact white_short_mem b hturn hoff
    · intro hoff
      unfold castleLongOffered at hoff
      rw [hturn, if_pos rfl] at hoff
      exact white_long_mem b hturn hoff
  | Black =>
    rw [hturn] at hk hkin
    refine ⟨black_short_char b ho hturn hk hkin, black_long_char b ho hturn hk hkin, ?_, ?_⟩
    · intro hoff
      unfold castleShortOffered at hoff
      rw [hturn, if_neg (by simp)] at hoff
      exact black_short_mem b hturn hoff
    · intro hoff
      unfold castleLongOffered at hoff
      rw [hturn, if_neg (by simp)] at hoff
      exact black_long_mem b hturn hoff

/-- C4 witness: the amended theorem applied at the concrete position
`boardC3` (kings e1/e8, rooks on all four corners, full rights, white to
move), whose hypotheses hold by evaluation. -/
theorem isPseudoLegal_castling_characterization_witness :
    (boardC3.occupied = boardC3.occupiedCoW ||| boardC3.occupiedCoB ∧
      PieceTypeAt boardC3 (kingHomeSq boardC3.turn) = King ∧
      occCo boardC3 boardC3.turn &&& BBSquares (kingHomeSq boardC3.turn) > 0) ∧
    ((IsPseudoLegal boardC3
        (some ⟨kingHomeSq boardC3.turn, castleShortTo boardC3.turn, PieceTypes.None⟩) =
      (decide (boardC3.castlingRights &&& castleShortRight boardC3.turn > 0) &&
        decide (castleShortBetween boardC3.turn &&& boardC3.occupied = 0))) ∧
    (IsPseudoLegal boardC3
        (some ⟨kingHomeSq boardC3.turn, castleLongTo boardC3.turn, PieceTypes.None⟩) =
      (decide (boardC3.castlingRights &&& castleLongRight boardC3.turn > 0) &&
        decide (castleLongBetween boardC3.turn &&& boardC3.occupied = 0))) ∧
    (castleShortOffered boardC3 = true →
      (⟨kingHomeSq boardC3.turn, castleShortTo boardC3.turn, PieceTypes.None⟩ : Move) ∈
        GeneratePseudoLegalMoves boardC3 true true true true true true true) ∧
    (castleLongOffered boardC3 = true →
      (⟨kingHomeSq boardC3.turn, castleLongTo boardC3.turn, PieceTypes.None⟩ : Move) ∈
        GeneratePseudoLegalMoves boardC3 true true true true true true true)) :=
  ⟨⟨by decide, by decide, by decide⟩,
    isPseudoLegal_castling_characterization boardC3 (by decide) (by decide) (by decide)⟩

/-- C4 counterexample to the claim as stated: at `boardC4` (white king e1,
rook h1, kingside rights, black rook f8 attacking the transit square f1)
`IsPseudoLegal` accepts e1g1 although the generator, which re-checks the
attack conditions, does not offer it. -/
theorem isPseudoLegal_accepts_unoffered_castle :
    IsPseudoLegal boardC4 (some (mv E1 G1)) = true ∧
    (mv E1 G1) ∉ GeneratePseudoLegalMoves boardC4 true true true true true true true := by
  decide!

/-- C9: the claim says `bitScan(b, n)` evaluates without fault for every
64-bit `b` and every `0 ≤ n ≤ 64`.  The string-formatting implementation of
`bit.go` slices `str[:(len(str)-n)]` and panics whenever `n` exceeds the
binary length of `b`: already `bitScan(1, 2)` faults (modelled as `none`).
`popCount` itself is correct, and `bitScan` does handle the highest square
when it does not fault. -/
theorem bitScan_faults_at_one_two :
    bitScan 1 2 = Option.none ∧ popCount (2 ^ 64 - 1) = 64 ∧ bitScan (2 ^ 63) 0 = some 63 := by
  refine ⟨by decide, by decide, by decide⟩

/-- C10: `MoveFromUci` returns `nil` exactly for the string `"0000"` and for
inputs whose byte length is neither 4 nor 5; any other 4- or 5-byte input
yields a non-nil move, with unrecognized square names mapped to square 0
(`"zz11"`) and an unrecognized promotion letter mapped to no promotion
(`"e2e4x"`), so malformed UCI input is never reported as an error. -/
theorem moveFromUci_none_iff (uci : List Nat) :
    (MoveFromUci uci = Option.none ↔
      uci = [48, 48, 48, 48] ∨ (uci.length ≠ 4 ∧ uci.length ≠ 5)) ∧
    MoveFromUci [122, 122, 49, 49] = some ⟨0, 0, PieceTypes.None⟩ ∧
    MoveFromUci [101, 50, 101, 52, 120] = some ⟨12, 28, PieceTypes.None⟩ := by
  refine ⟨?_, by decide, by decide⟩
  unfold MoveFromUci
  split_ifs with h1 h2 h3
  · simp [h1]
  · simp [h1, h2]
  · simp [h1, h3]
  · simp [h1, h2, h3]

/-- Every branch of `SetFen` either succeeds or returns the receiver
unchanged: all validation precedes all mutation. -/
theorem setFen_cases (b : Bitboard) (fen : String) :
    (SetFen b fen).1 = Option.none ∨ (SetFen b fen).2 = b := by
  unfold SetFen
  split
  · repeat' first
      | exact Or.inr rfl
      | exact Or.inl rfl
      | split
  · exact Or.inr rfl

/-- C5: whenever `SetFen` reports an error, the entire position state is
exactly as it was before the call — all six fields are validated before the
`Clear`/placement mutation phase begins. -/
theorem setFen_error_leaves_position_unchanged (b : Bitboard) (fen : String)
    (h : (SetFen b fen).1.isSome = true) : (SetFen b fen).2 = b := by
  rcases setFen_cases b fen with h0 | h0
  · rw [h0] at h
    exact absurd h (by simp)
  · exact h0

/-- Witness for C5: the one-field string `""` is rejected and the starting
position is returned unchanged. -/
theorem setFen_error_leaves_position_unchanged_witness :
    (SetFen resetBoard "").1.isSome = true ∧ (SetFen resetBoard "").2 = resetBoard :=
  ⟨by decide, setFen_error_leaves_position_unchanged resetBoard "" (by decide)⟩

/-- C3: the claim says a single move from one castling-relevant square to
another revokes the rights attached to both squares; in `Push`'s else-if
revocation chain only the first matching square wins.  At `boardC3` the
pseudo-legal rook move h1→h8 leaves the castling rights at 14: white
kingside is cleared but black kingside (bit 4) survives although h8 is the
move's destination. -/
theorem push_h1h8_keeps_black_kingside_right :
    IsPseudoLegal boardC3 (some (mv H1 H8)) = true ∧
      (Push boardC3 (some (mv H1 H8))).castlingRights = 14 ∧
      (Push boardC3 (some (mv H1 H8))).castlingRights &&& CastlingBlackKingSide ≠ 0 := by
  decide!

/-- C6: the claim says every `Push` — including a null move — increments the
occurrence count of the resulting hash and every `Pop` decrements the
current one, so a null `Push` followed by `Pop` changes nothing.  In the
code the null-move branch of `Push` returns before the increment while
`Pop` decrements unconditionally: after `Push(null); Pop()` from the
initial position the count of the null-move position's hash has dropped to
−1 (it was 0 before). -/
theorem push_null_pop_corrupts_transpositions :
    (Push resetBoard Option.none).transpositions = resetBoard.transpositions ∧
      tGet ((Pop (Push resetBoard Option.none)).2).transpositions
        (ZobristHash (Push resetBoard Option.none)) = -1 ∧
      tGet resetBoard.transpositions (ZobristHash (Push resetBoard Option.none)) = 0 := by
  decide!

/-- C2: the claim says `PseudoLegalMoveCount()` equals the length of the
full pseudo-legal move list for every reachable position.  After the legal
move 1. e4 (black to move) the enumeration yields 20 moves but the count
routine returns 12: its black "Pawns one forward" branch adds only the
promotion bonus and omits the base `popCount`, so black's eight single pawn
pushes are not counted. -/
theorem pseudoLegalMoveCount_mismatch_after_e4 :
    (mv 12 28) ∈ GenerateLegalMoves resetBoard true true true true true true true ∧
      PseudoLegalMoveCount boardAfterE4 = 12 ∧
      (GeneratePseudoLegalMoves boardAfterE4 true true true true true true true).length = 20 := by
  decide!

/-- C7 counterexample: the claim says `CanClaimThreefoldRepitition()` first
becomes true exactly at the ply on which the repeated position stands on
the board for the third time (ply 8 of the knight shuffle) and is false at
every earlier ply.  All seven knight-shuffle plies pass the code's own
`IsLegal` test, yet at ply 7 — where the current position stands only for
the second time (occurrence count 2) — the routine already returns true. -/
theorem canClaimThreefold_true_at_ply7 :
    isLegalLine resetBoard knightLine = true ∧
      tGet (kAt 7).transpositions (ZobristHash (kAt 7)) = 2 ∧
      CanClaimThreefoldRepitition (kAt 7) = true := by
  decide!

/-- C7 amended: for the knight out-and-back shuffle the routine returns
false at plies 0–6 and first returns true at ply 7, the first ply at which
the side to move has a move that immediately produces the third occurrence
(the routine claims one ply before the third occurrence stands on the
board); detection is based on the occurrence counts plus this one-move
lookahead, with no replay verification. -/
theorem canClaimThreefold_false_before_ply7 :
    ((List.range 7).all (fun k => !CanClaimThreefoldRepitition (kAt k))) = true ∧
      CanClaimThreefoldRepitition (kAt 7) = true := by
  decide!

end ChessGo
